import Mathlib

/-!
Shallow embedding of the xiaohongshu hot-search crawler (Python sources under
`src/`) together with theorems settling the frozen specification claims.

Conventions of the embedding:
* Python `int` is modelled as `Int`, list lengths as `Nat` with explicit casts.
* Python `datetime` instants are modelled as an abstract type `DateTime := Nat`;
  the ISO-8601 codec `isoformat`/`fromisoformat` is an exact inverse pair in
  Python, so it is modelled as the identity on the abstract instants.
* Python `float` values reachable in the heat parser are decimal literals;
  they are modelled exactly as mantissa-exponent pairs `m * 10 ^ e` over
  `Int`, plus explicit infinity and NaN markers.  Binary64 overflow is
  modelled: a decimal value whose magnitude reaches the round-to-nearest
  overflow threshold `2 ^ 1024 - 2 ^ 970` becomes an infinity, both when
  `float()` converts the literal and when the result is scaled by the unit
  multiplier (CPython's `float * int` promotes the `int` exactly, so the
  scaled value overflows at the same threshold).  The exact-decimal
  comparison against that threshold matches the rounded-double behaviour
  except for decimals within half an ulp of the threshold itself; the
  concrete strings the theorems evaluate are nowhere near it.  The
  analysis statistics (Python floats from `statistics.mean`/`median`) are
  idealised as exact rationals (`ℚ`).
* Fallible code returns `Option`/`Except`; an uncaught Python exception is an
  `Except.error` value.
-/

/-- Abstract instant standing for a Python `datetime` value
(`models.py`, field types of `HotSearchItem`/`HotSearchResult`). -/
abbrev DateTime := Nat

/-- Embedding of `HotSearchItem` (`src/crawler/models.py` lines 9-22):
word, heat, rank, url, optional category, tags, creation instant. -/
structure HotSearchItem where
  word : String
  heat : Int
  rank : Int
  url : String
  category : Option String := none
  tags : List String := []
  created_at : DateTime := 0
deriving Repr, DecidableEq

/-- Embedding of `HotSearchResult` (`src/crawler/models.py` lines 25-43).
All four fields are ordinary pydantic fields, so any combination of field
values is constructible (e.g. `HotSearchResult(total=5)` in Python). -/
structure HotSearchResult where
  items : List HotSearchItem := []
  total : Int := 0
  crawl_time : DateTime := 0
  source : String := "xiaohongshu"
deriving Repr, DecidableEq

/-- Embedding of `HotSearchResult.add_item` (`models.py` lines 32-35):
append the item, then recompute `total` as the length of the item list. -/
def HotSearchResult.add_item (r : HotSearchResult) (item : HotSearchItem) :
    HotSearchResult :=
  let items' := r.items ++ [item]
  { r with items := items', total := (items'.length : Int) }

/-- A sequence of `add_item` calls in order (Python `for`-loop of appends). -/
def HotSearchResult.add_items (r : HotSearchResult)
    (l : List HotSearchItem) : HotSearchResult :=
  l.foldl HotSearchResult.add_item r

/-- Embedding of `HotSearchResult.get_top_n` (`models.py` lines 37-39):
Python `self.items[:n]` for a non-negative `n` is the first
`min n items.length` elements. -/
def HotSearchResult.get_top_n (r : HotSearchResult) (n : Nat) :
    List HotSearchItem :=
  r.items.take n

/-- Embedding of `CrawlerConfig` (`models.py` lines 46-56) with the source's
default field values.  `max_retries` drives `range(max_retries)`, whose
iteration count is a natural number. -/
structure CrawlerConfig where
  hot_search_url : String
  timeout : Int := 30
  max_retries : Nat := 3
  request_delay : Int := 3
  user_agent : String
  limit : Nat := 50
  use_playwright : Bool := false
  browser_type : String := "chromium"
  headless : Bool := true
deriving Repr, DecidableEq

/-! ## Persistence (`src/utils/data_saver.py`)

`save_json` serialises a `HotSearchResult` into a JSON object with keys
`total`, `crawl_time`, `source`, `items`; each item carries `word`, `heat`,
`rank`, `url`, `category`, `tags`, `created_at`.  `load_json` reads such an
object back.  The JSON object produced by `save_json` is modelled by the
structures below (datetime fields hold the abstract instant whose ISO string
is what the file physically stores). -/

/-- One element of the `items` array written by `DataSaver.save_json`
(`data_saver.py` lines 83-93). -/
structure SavedItemJson where
  word : String
  heat : Int
  rank : Int
  url : String
  category : Option String
  tags : List String
  created_at : DateTime
deriving Repr, DecidableEq

/-- The top-level JSON object written by `DataSaver.save_json`
(`data_saver.py` lines 76-93). -/
structure SavedJson where
  total : Int
  crawl_time : DateTime
  source : String
  items : List SavedItemJson
deriving Repr, DecidableEq

/-- Serialisation of one item inside `DataSaver.save_json`. -/
def itemToJson (i : HotSearchItem) : SavedItemJson :=
  ⟨i.word, i.heat, i.rank, i.url, i.category, i.tags, i.created_at⟩

/-- Embedding of `DataSaver.save_json` (`data_saver.py` lines 55-103),
restricted to the serialised content (file-system placement is I/O glue
outside the claims). -/
def save_json (r : HotSearchResult) : SavedJson :=
  ⟨r.total, r.crawl_time, r.source, r.items.map itemToJson⟩

/-- Deserialisation of one item inside `DataSaver.load_json`
(`data_saver.py` lines 164-174). -/
def itemOfJson (j : SavedItemJson) : HotSearchItem :=
  ⟨j.word, j.heat, j.rank, j.url, j.category, j.tags, j.created_at⟩

/-- Embedding of `DataSaver.load_json` (`data_saver.py` lines 150-181):
construct a `HotSearchResult` whose `total`, `crawl_time` and `source` come
from the JSON object (and whose item list starts empty), then `add_item`
each deserialised item in file order. -/
def load_json (d : SavedJson) : HotSearchResult :=
  HotSearchResult.add_items
    { items := [], total := d.total, crawl_time := d.crawl_time,
      source := d.source }
    (d.items.map itemOfJson)

/-! ## Heat value parser (`src/crawler/api_crawler.py` lines 113-139)

`_parse_heat_value` lowercases and strips the input, removes spaces and
commas, strips a ten-thousand marker (`万`/`w`) or thousand marker (`千`/`k`)
if present, converts the remainder with Python `float`, scales, and truncates
with `int`.  `ValueError`/`TypeError` are caught and yield `0`; `int` of an
infinite float raises `OverflowError`, which the function does not catch. -/

/-- Result of Python `float(s)`: a finite value, a signed infinity, or NaN.
A finite value parsed from a decimal literal is exactly `m * 10 ^ e` and is
carried as the pair `(m, e)` — exact decimal arithmetic, which coincides
with the claims' inputs (all exactly representable). -/
inductive PyNum where
  | finite (m e : Int)
  | inf (neg : Bool)
  | nan
deriving Repr, DecidableEq

/-- ASCII lowercasing of one character, the effect of Python `str.lower()`
on every character this program feeds it (digits, ASCII letters, CJK unit
markers and punctuation are unaffected or ASCII-lowered). -/
def asciiLower (c : Char) : Char :=
  if 'A' ≤ c ∧ c ≤ 'Z' then Char.ofNat (c.toNat + 32) else c

/-- Characters treated as whitespace by Python `str.strip()`,
`str.split()` with no argument, and `float()` edge-trimming
(`Py_UNICODE_ISSPACE`): ASCII whitespace, the C0 information separators,
NEL, NBSP, and the Unicode space separators. -/
def isPySpace (c : Char) : Bool :=
  c = ' ' ∨ c = '\t' ∨ c = '\n' ∨ c = '\x0b' ∨ c = '\x0c' ∨ c = '\r' ∨
  ('\x1c' ≤ c ∧ c ≤ '\x1f') ∨ c = '\x85' ∨ c = '\xa0' ∨ c = '\u1680' ∨
  ('\u2000' ≤ c ∧ c ≤ '\u200a') ∨ c = '\u2028' ∨ c = '\u2029' ∨
  c = '\u202f' ∨ c = '\u205f' ∨ c = '\u3000'

/-- Strip leading and trailing whitespace from a character list
(Python `str.strip()`). -/
def stripPy (cs : List Char) : List Char :=
  ((cs.dropWhile isPySpace).reverse.dropWhile isPySpace).reverse

/-- Validity of digit-group underscores in a Python numeric literal accepted
by `float`: every underscore must sit directly between two digits.  The first
argument is the preceding character, if any. -/
def undOk : Option Char → List Char → Bool
  | _, [] => true
  | p, c :: rest =>
    if c = '_' then
      (match p with | some d => d.isDigit | none => false) &&
      (match rest with | d :: _ => d.isDigit | [] => false) &&
      undOk (some c) rest
    else undOk (some c) rest

/-- Numeric value of a list of decimal digit characters (empty list gives 0). -/
def digitsToNat (cs : List Char) : Nat :=
  cs.foldl (fun a c => 10 * a + (c.toNat - 48)) 0

/-- The IEEE-754 binary64 overflow threshold under round-to-nearest-even:
an exact magnitude at or above `2 ^ 1024 - 2 ^ 970` rounds to infinity
(`float('1e400')` is `inf` in Python), strictly below it the value stays
finite. -/
def dblOverflowThreshold : Nat :=
  2 ^ 1024 - 2 ^ 970

/-- Whether the exact decimal value `m * 10 ^ e` overflows a binary64 float,
by comparing its magnitude with the overflow threshold (an exact integer
comparison on either side of the decimal point).  The comparison uses the
exact decimal value rather than the value already rounded to a double; the
two agree except within one part in `2 ^ 53` of the threshold, far from
every input the theorems evaluate. -/
def decOverflows (m e : Int) : Bool :=
  if 0 ≤ e then dblOverflowThreshold ≤ m.natAbs * 10 ^ e.toNat
  else dblOverflowThreshold * 10 ^ (-e).toNat ≤ m.natAbs

/-- Parse the exponent part of a float literal (after the `e`): an optional
sign followed by at least one digit. -/
def parseExp (cs : List Char) : Option Int :=
  match cs with
  | '+' :: ds => if ds ≠ [] ∧ ds.all Char.isDigit then some (digitsToNat ds : Int) else none
  | '-' :: ds => if ds ≠ [] ∧ ds.all Char.isDigit then some (-(digitsToNat ds : Int)) else none
  | ds => if ds ≠ [] ∧ ds.all Char.isDigit then some (digitsToNat ds : Int) else none

/-- Parse an unsigned decimal float literal `digits [. digits] [e exp]` with
at least one mantissa digit, as Python `float` does (underscores already
removed by the caller).  The exact value of `ip.fs e× exp` is
`digits(ip ++ fs) * 10 ^ (exp - |fs|)`; the pair `(mantissa, exponent)` is
returned. -/
def parseDecimal (cs : List Char) : Option (Int × Int) :=
  let mant := cs.takeWhile (· ≠ 'e')
  let expPart := cs.dropWhile (· ≠ 'e')
  let exp? : Option Int :=
    match expPart with
    | [] => some 0
    | _ :: es => parseExp es
  match exp? with
  | none => none
  | some e =>
    let ipart := mant.takeWhile (· ≠ '.')
    let fracPart := mant.dropWhile (· ≠ '.')
    let fpart := match fracPart with
      | [] => some ([] : List Char)
      | _ :: fs => if fs.all Char.isDigit then some fs else none
    match fpart with
    | none => none
    | some fs =>
      if ipart.all Char.isDigit ∧ (ipart ≠ [] ∨ fs ≠ []) then
        some ((digitsToNat (ipart ++ fs) : Int), e - (fs.length : Int))
      else none

/-- Parse an unsigned payload of `float()` after the sign has been removed:
the keywords `inf`/`infinity`/`nan`, or a decimal literal.  A decimal
literal whose magnitude reaches the binary64 overflow threshold converts to
a (signed) infinity, exactly as Python's `float` does. -/
def parseUnsigned (neg : Bool) (cs : List Char) : Option PyNum :=
  if cs = "inf".data ∨ cs = "infinity".data then some (PyNum.inf neg)
  else if cs = "nan".data then some PyNum.nan
  else (parseDecimal cs).map
    (fun p =>
      if decOverflows p.1 p.2 then PyNum.inf neg
      else PyNum.finite (if neg then -p.1 else p.1) p.2)

/-- Embedding of Python `float(s)` for character lists: trim whitespace,
validate and drop digit-group underscores, read an optional sign, then an
unsigned payload.  `none` models a raised `ValueError`.  The caller
(`_parse_heat_value`) has already lowercased its argument, so keyword
matching on lowercase spellings is exact here. -/
def pyFloatOfChars (cs : List Char) : Option PyNum :=
  if undOk none (stripPy cs) then
    match (stripPy cs).filter (· ≠ '_') with
    | '+' :: rest => parseUnsigned false rest
    | '-' :: rest => parseUnsigned true rest
    | rest => parseUnsigned false rest
  else none

/-- Truncation toward zero of the exact value `m * 10 ^ e`, the behaviour
of Python `int()` on a finite float: for a non-negative exponent the value
is integral; otherwise `Int.tdiv` (division rounding toward zero) by the
power of ten truncates toward zero. -/
def pyIntOfDec (m e : Int) : Int :=
  if 0 ≤ e then m * 10 ^ e.toNat else m.tdiv (10 ^ (-e).toNat)

/-- The uncaught exception `_parse_heat_value` can raise: `int()` of an
infinite float raises `OverflowError`, which is not in the function's
`except (ValueError, TypeError)` clause. -/
inductive HeatErr where
  | overflow
deriving Repr, DecidableEq

deriving instance DecidableEq for Except

/-- Shared tail of the three branches of `_parse_heat_value`
(`api_crawler.py` lines 125-135): `int(float(num_str) * scale)` with
`scale ∈ {10000, 1000, 1}` passed as the exponent `scaleExp ∈ {4, 3, 0}` —
multiplying the exact value `m * 10 ^ e` by `10 ^ scaleExp` shifts the
exponent.  A `float` parse failure is a caught `ValueError` (result 0) and
`int(nan)` is a caught `ValueError` (result 0); when the float is infinite,
or the multiplication by the scale overflows to infinity (as
`1.7e308 * 10000` does), `int` raises `OverflowError`, which propagates. -/
def scaledHeat (num : List Char) (scaleExp : Nat) : Except HeatErr Int :=
  match pyFloatOfChars num with
  | none => Except.ok 0
  | some PyNum.nan => Except.ok 0
  | some (PyNum.inf _) => Except.error HeatErr.overflow
  | some (PyNum.finite m e) =>
    if decOverflows m (e + (scaleExp : Int)) then Except.error HeatErr.overflow
    else Except.ok (pyIntOfDec m (e + (scaleExp : Int)))

/-- Lowercased character sequence of a string, the first processing step of
`_parse_heat_value` (`heat_str.lower()`). -/
def pyLowered (s : String) : List Char :=
  s.data.map asciiLower

/-- The preprocessing of `_parse_heat_value` (`api_crawler.py` lines
120-123): lowercase, strip, and remove spaces and commas. -/
def processedChars (s : String) : List Char :=
  (stripPy (pyLowered s)).filter (fun c => c ≠ ' ' ∧ c ≠ ',')

/-- Embedding of `XiaohongshuApiCrawler._parse_heat_value`
(`api_crawler.py` lines 113-139).  Empty input returns 0 immediately;
otherwise the input is lowercased, stripped, has spaces and commas removed,
and is dispatched on the `万`/`w` and `千`/`k` unit markers. -/
def parse_heat_value (heat_str : String) : Except HeatErr Int :=
  if heat_str = "" then Except.ok 0
  else if (processedChars heat_str).contains '万' ∨
      (processedChars heat_str).contains 'w' then
    scaledHeat ((processedChars heat_str).filter
      (fun c => c ≠ '万' ∧ c ≠ 'w')) 4
  else if (processedChars heat_str).contains '千' ∨
      (processedChars heat_str).contains 'k' then
    scaledHeat ((processedChars heat_str).filter
      (fun c => c ≠ '千' ∧ c ≠ 'k')) 3
  else
    scaledHeat (processedChars heat_str) 0

/-! ## API retrieval strategy (`src/crawler/api_crawler.py`)

`XiaohongshuApiCrawler._make_api_request` issues one GET with the credential
as the `key` query parameter.  The transport (the `requests` library plus the
remote endpoint) is modelled as a stub from the credential to an outcome; the
embedding additionally logs the credentials of issued requests, so theorems
can observe whether a network call happened. -/

/-- One entry of the API body's `data` array
(upstream shape `{name, rank, viewnum, url, word_type}`; every field is read
with `dict.get` and may be absent). -/
structure ApiEntry where
  name : Option String := none
  rank : Option Int := none
  viewnum : Option String := none
  url : Option String := none
  word_type : Option String := none
deriving Repr, DecidableEq

/-- A successfully JSON-decoded API body `{code, data, msg}`. -/
structure ApiBody where
  code : Int
  data : List ApiEntry
  msg : String := ""
deriving Repr, DecidableEq

/-- Outcome of one HTTP GET as seen by `_make_api_request`: a raised
`requests` exception, or a response with a status code and a JSON decode
result (`none` models a body that fails to decode). -/
inductive HttpOutcome where
  | exn
  | resp (status : Int) (body : Option ApiBody)
deriving Repr, DecidableEq

/-- Embedding of `XiaohongshuApiCrawler._make_api_request`
(`api_crawler.py` lines 22-58).  The call issues the GET unconditionally
(no credential check), then rejects non-200 statuses, undecodable bodies and
bodies whose embedded `code` is not 200.  The second component is the log of
credentials sent over the network. -/
def make_api_request (api_key : String) (transport : String → HttpOutcome) :
    Option ApiBody × List String :=
  let out :=
    match transport api_key with
    | HttpOutcome.exn => none
    | HttpOutcome.resp status body =>
      if status ≠ 200 then none
      else
        match body with
        | none => none
        | some b => if b.code ≠ 200 then none else some b
  (out, [api_key])

/-- Loop body of `XiaohongshuApiCrawler._parse_api_data`
(`api_crawler.py` lines 73-104) over the enumerated, limit-truncated entry
list: skip entries with an absent or empty `name`; parse the heat string,
where an uncaught-in-`_parse_heat_value` `OverflowError` is caught by the
per-item `except Exception` and skips the entry; otherwise append an item
whose rank defaults to the 1-based position and whose category is the
`word_type` (default `"热"`). -/
def parseApiEntries (now : DateTime) :
    List (Nat × ApiEntry) → HotSearchResult → HotSearchResult
  | [], r => r
  | (idx, e) :: rest, r =>
    let word := e.name.getD ""
    if word = "" then parseApiEntries now rest r
    else
      match parse_heat_value (e.viewnum.getD "0") with
      | Except.error _ => parseApiEntries now rest r
      | Except.ok heat =>
        parseApiEntries now rest
          (r.add_item
            { word := word, heat := heat,
              rank := e.rank.getD ((idx : Int) + 1),
              url := e.url.getD "", category := some (e.word_type.getD "热"),
              tags := [], created_at := now })

/-- Embedding of `XiaohongshuApiCrawler._parse_api_data`
(`api_crawler.py` lines 60-111): an empty `data` array returns the fresh
empty result immediately; otherwise the entries up to `limit` are parsed.
No reachable exception escapes the per-item handlers, so the Python
function's `None`-on-exception outer branch is dead and the embedding is
total. -/
def parse_api_data (body : ApiBody) (limit : Nat) (now : DateTime) :
    HotSearchResult :=
  let fresh : HotSearchResult :=
    { items := [], total := 0, crawl_time := now, source := "xiaohongshu" }
  if body.data = [] then fresh
  else parseApiEntries now (body.data.take limit).enum fresh

/-- Embedding of `XiaohongshuApiCrawler.crawl_hot_search`
(`api_crawler.py` lines 141-163): call the API, return `none` on a failed
call, otherwise parse; the request log is passed through. -/
def api_crawl_hot_search (api_key : String) (transport : String → HttpOutcome)
    (limit : Nat) (now : DateTime) : Option HotSearchResult × List String :=
  let (apiData, reqs) := make_api_request api_key transport
  match apiData with
  | none => (none, reqs)
  | some body => (some (parse_api_data body limit now), reqs)

/-- Python truthiness of an optional string: `None` and `""` are falsy. -/
def pyTruthy : Option String → Bool
  | none => false
  | some s => s ≠ ""

/-- The configuration built by `create_api_crawler`
(`api_crawler.py` lines 183-188). -/
def apiCrawlerConfig : CrawlerConfig :=
  { hot_search_url := "https://api.itapi.cn/api/hotnews/xiaohongshu",
    user_agent := "XiaohongshuApiCrawler/1.0", timeout := 30, limit := 50 }

/-- Embedding of `create_api_crawler` (`api_crawler.py` lines 170-190):
fall back to the `XIAOHONGSHU_API_KEY` environment variable when the given
key is falsy, and raise `ValueError` (an `Except.error`, before any network
call) when the resulting key is still falsy; otherwise return the crawler's
credential and configuration. -/
def create_api_crawler (api_key env_key : Option String) :
    Except String (String × CrawlerConfig) :=
  let key := if pyTruthy api_key then api_key else env_key
  match key with
  | none => Except.error "missing api key"
  | some k =>
    if k = "" then Except.error "missing api key"
    else Except.ok (k, apiCrawlerConfig)

/-! ## HTTP scraping strategy with bounded retry (`src/crawler/base_crawler.py`)

`BaseCrawler._make_request` performs up to `max_retries` attempts.  Each
attempt first sleeps a jittered delay `uniform(request_delay,
request_delay+2)`, then asks the transport; a `requests` failure on the last
attempt returns `None`, and on a non-final attempt sleeps an exponential
backoff of `2^attempt + uniform(1, 3)` seconds.  The transport is a stub from
the attempt index to an optional decoded JSON body; randomness is an input
stream of draws. -/

/-- Observable sleep of the retry loop: the pre-request jittered delay or
the exponential backoff (`base_crawler.py` lines 41-43 and 64-66), with its
duration in seconds. -/
inductive ReqEvent where
  | preDelay (seconds : ℚ)
  | backoff (seconds : ℚ)
deriving Repr, DecidableEq

/-- Recursive unfolding of the `for attempt in range(max_retries)` loop of
`BaseCrawler._make_request` (`base_crawler.py` lines 45-68).  `attempt` is
the current loop index and `remaining` the number of indices left, so
`remaining = 1` exactly when `attempt == max_retries - 1`.  `delayDraw i` is
the draw of `uniform(request_delay, request_delay + 2) - request_delay` and
`backoffDraw i` the draw of `uniform(1, 3)` for attempt `i`. -/
def makeRequestAux {α : Type} (transport : Nat → Option α)
    (requestDelay : ℚ) (delayDraw backoffDraw : Nat → ℚ) :
    Nat → Nat → Option α × List ReqEvent
  | _, 0 => (none, [])
  | attempt, remaining + 1 =>
    let ev0 := ReqEvent.preDelay (requestDelay + delayDraw attempt)
    match transport attempt with
    | some resp => (some resp, [ev0])
    | none =>
      if remaining = 0 then (none, [ev0])
      else
        let ev1 := ReqEvent.backoff ((2 : ℚ) ^ attempt + backoffDraw attempt)
        let rec' := makeRequestAux transport requestDelay delayDraw backoffDraw
          (attempt + 1) remaining
        (rec'.1, ev0 :: ev1 :: rec'.2)

/-- Embedding of `BaseCrawler._make_request`: run the loop from attempt 0
with `max_retries` indices, returning the decoded response (or `none`) and
the chronological list of sleeps. -/
def make_request {α : Type} (cfg : CrawlerConfig) (transport : Nat → Option α)
    (delayDraw backoffDraw : Nat → ℚ) : Option α × List ReqEvent :=
  makeRequestAux transport (cfg.request_delay : ℚ) delayDraw backoffDraw 0
    cfg.max_retries

/-- Number of attempts recorded in a sleep trace: every attempt begins with
exactly one pre-request delay. -/
def numAttempts (tr : List ReqEvent) : Nat :=
  tr.countP (fun e => match e with | ReqEvent.preDelay _ => true | _ => false)

/-- The backoff durations of a sleep trace, in order. -/
def backoffSeconds (tr : List ReqEvent) : List ℚ :=
  tr.filterMap (fun e => match e with
    | ReqEvent.backoff q => some q
    | _ => none)

/-! ## Fallback orchestrator (`src/crawler/crawler_with_fallback.py`)

`XiaohongshuCrawlerWithFallback.crawl_hot_search` first runs the HTTP
scraping strategy; if that yields a result with `total > 0` it is returned
at once.  Otherwise, when Playwright is enabled and starts, the browser
extraction runs and its result (possibly `None`) is returned; when disabled
or failing to start, the method returns `None`.  Browser primitives are
modelled by stubs for which operation raises first (creation of the context
or page, or navigation); extraction itself catches all of its own
exceptions. -/

/-- Embedding of the DOM-query loop of
`XiaohongshuCrawlerWithFallback._extract_data_from_page`
(`crawler_with_fallback.py` lines 102-131): for each matched element index
up to `limit`, a truthy `text_content()` (not `None`, not empty before
stripping) yields an item with the stripped text, heat 0, rank `i + 1` and
empty url. -/
def extractLoop (now : DateTime) :
    List (Nat × Option String) → HotSearchResult → HotSearchResult
  | [], r => r
  | (i, t) :: rest, r =>
    match t with
    | none => extractLoop now rest r
    | some txt =>
      if txt = "" then extractLoop now rest r
      else
        extractLoop now rest
          (r.add_item
            { word := ⟨stripPy txt.data⟩, heat := 0, rank := (i : Int) + 1,
              url := "",
              category := none, tags := [], created_at := now })

/-- Embedding of `_extract_data_from_page`
(`crawler_with_fallback.py` lines 97-175).  `texts` are the
`text_content()` values of the elements matched by the class-pattern
locator; the loop runs over the first `min (texts.length) limit` of them.
The window-object probe and script scan populate nothing.  The result is
returned only when `total > 0`, else `None`. -/
def extract_data_from_page (texts : List (Option String)) (limit : Nat)
    (now : DateTime) : Option HotSearchResult :=
  let fresh : HotSearchResult :=
    { items := [], total := 0, crawl_time := now, source := "xiaohongshu" }
  let r := extractLoop now ((texts.take (min texts.length limit)).enum) fresh
  if 0 < r.total then some r else none

/-- Resource events of the Playwright path: acquisitions performed by
`_crawl_with_playwright` and releases performed by it or by `close`. -/
inductive REvent where
  | newContext
  | newPage
  | closePage
  | closeContext
  | closeBrowser
  | stopEngine
deriving Repr, DecidableEq

/-- Behaviour stub for the browser primitives used by
`_crawl_with_playwright`: whether `new_context`, `new_page`, and the
navigation block (`set_default_timeout`/`goto`/`content`) succeed. -/
structure PwStub where
  ctx_ok : Bool := true
  page_ok : Bool := true
  nav_ok : Bool := true
deriving Repr, DecidableEq

/-- Embedding of `XiaohongshuCrawlerWithFallback._crawl_with_playwright`
(`crawler_with_fallback.py` lines 54-95), instrumented with the resource
trace.  A missing browser returns `None` with no activity; an exception in
any step lands in the `except` clause, which returns `None` without closing
anything; only the straight-line success path closes the page and the
context (lines 87-89), and the browser and engine handle are never closed
here. -/
def crawl_with_playwright (browser_ok : Bool) (st : PwStub)
    (texts : List (Option String)) (limit : Nat) (now : DateTime) :
    Option HotSearchResult × List REvent :=
  if ¬ browser_ok then (none, [])
  else if ¬ st.ctx_ok then (none, [])
  else if ¬ st.page_ok then (none, [REvent.newContext])
  else if ¬ st.nav_ok then (none, [REvent.newContext, REvent.newPage])
  else
    (extract_data_from_page texts limit now,
     [REvent.newContext, REvent.newPage, REvent.closePage,
      REvent.closeContext])

/-- Embedding of `XiaohongshuCrawlerWithFallback.close`
(`crawler_with_fallback.py` lines 207-223): when a browser exists its close
is attempted, then when an engine handle exists its stop is attempted; a
failure of either is logged and swallowed, so both release attempts always
happen. -/
def close_fallback_crawler (browser_exists engine_exists : Bool) :
    List REvent :=
  (if browser_exists then [REvent.closeBrowser] else []) ++
  (if engine_exists then [REvent.stopEngine] else [])

/-- The claim's teardown property over a resource trace of one
`_crawl_with_playwright` call: every acquired page and context is released,
and the browser and engine handle are released, all before the call
returns. -/
def releasedAllResources (tr : List REvent) : Prop :=
  (REvent.newContext ∈ tr → REvent.closeContext ∈ tr) ∧
  (REvent.newPage ∈ tr → REvent.closePage ∈ tr) ∧
  REvent.closeBrowser ∈ tr ∧ REvent.stopEngine ∈ tr

/-- Embedding of `XiaohongshuCrawlerWithFallback.crawl_hot_search`
(`crawler_with_fallback.py` lines 177-205).  `primary` is the outcome of the
wrapped HTTP scraping strategy (`super().crawl_hot_search()`), `use_pw` the
`use_playwright` flag (config flag and Playwright importability), `setup_ok`
whether `_setup_playwright` starts the browser.  The second component
records whether the browser fallback was invoked. -/
def fallback_crawl_hot_search (primary : Option HotSearchResult)
    (use_pw setup_ok : Bool) (st : PwStub) (texts : List (Option String))
    (limit : Nat) (now : DateTime) : Option HotSearchResult × Bool :=
  let primaryOk : Bool :=
    match primary with
    | some r => decide (0 < r.total)
    | none => false
  if primaryOk then (primary, false)
  else if use_pw then
    if setup_ok then
      ((crawl_with_playwright true st texts limit now).1, true)
    else (none, true)
  else (none, false)

/-! ## Analysis (`src/utils/analysis.py`) -/

/-- Arithmetic mean (Python `statistics.mean`), exact over ℚ. -/
def qMean (l : List ℚ) : ℚ :=
  l.sum / (l.length : ℚ)

/-- Stable ascending insertion by value, used for the median. -/
def insertAsc (x : ℚ) : List ℚ → List ℚ
  | [] => [x]
  | y :: ys => if x < y then x :: y :: ys else y :: insertAsc x ys

/-- Ascending stable sort of rationals. -/
def sortAsc (l : List ℚ) : List ℚ :=
  l.foldr insertAsc []

/-- Python `statistics.median`: middle element of the sorted values for odd
length, mean of the two middle elements for even length (0 for an empty
list; unused there because callers guard emptiness). -/
def qMedian (l : List ℚ) : ℚ :=
  let s := sortAsc l
  let n := s.length
  if n = 0 then 0
  else if n % 2 = 1 then s.getD (n / 2) 0
  else (s.getD (n / 2 - 1) 0 + s.getD (n / 2) 0) / 2

/-- Maximum of a rational list (Python `max`; 0 for an empty list, unused). -/
def qMax (l : List ℚ) : ℚ :=
  l.foldr max 0

/-- Minimum of a nonempty rational list (Python `min`; 0 for empty,
unused). -/
def qMin : List ℚ → ℚ
  | [] => 0
  | x :: xs => xs.foldl min x

/-- Keys of a Python `collections.Counter` built from a list: the distinct
elements in first-occurrence order. -/
def firstKeys {α : Type} [DecidableEq α] : List α → List α
  | [] => []
  | x :: xs => x :: (firstKeys xs).filter (· ≠ x)

/-- A Python `Counter` over a list, as an association list in
first-occurrence key order. -/
def counterOf {α : Type} [DecidableEq α] (l : List α) : List (α × Nat) :=
  (firstKeys l).map (fun x => (x, l.count x))

/-- Stable descending insertion by count, matching the stable sort
underlying `Counter.most_common` (ties keep insertion order). -/
def insertDescCount {α : Type} (x : α × Nat) :
    List (α × Nat) → List (α × Nat)
  | [] => [x]
  | y :: ys => if y.2 < x.2 then x :: y :: ys else y :: insertDescCount x ys

/-- Python `Counter.most_common(n)`: entries sorted by descending count,
stably (the stable sort keeps equal-count entries in first-encountered
order, so each entry is inserted left to right past its predecessors),
truncated to `n`. -/
def mostCommon {α : Type} (n : Nat) (l : List (α × Nat)) : List (α × Nat) :=
  (l.foldl (fun acc x => insertDescCount x acc) []).take n

/-- Accumulating splitter behind `pySplit`: group maximal nonempty runs of
non-whitespace characters (`acc` holds the current run, reversed). -/
def splitWsAux : List Char → List Char → List String
  | [], acc => if acc = [] then [] else [⟨acc.reverse⟩]
  | c :: rest, acc =>
    if isPySpace c then
      if acc = [] then splitWsAux rest []
      else (⟨acc.reverse⟩ : String) :: splitWsAux rest []
    else splitWsAux rest (c :: acc)

/-- Python `str.split()` with no argument: whitespace-delimited words,
empty chunks dropped. -/
def pySplit (s : String) : List String :=
  splitWsAux s.data []

/-- The `heat_stats` object computed by `analyze_hot_search_data`. -/
structure HeatStats where
  avg_heat : ℚ
  max_heat : ℚ
  min_heat : ℚ
  median_heat : ℚ
deriving Repr, DecidableEq

/-- The analysis dictionary returned by `analyze_hot_search_data`
(`analysis.py` lines 51-64). -/
structure AnalysisResult where
  total_items : Nat
  heat_stats : HeatStats
  categories : List (String × Nat)
  avg_word_length : ℚ
  top_tags : List (String × Nat)
  top_words : List (String × Nat)
  crawl_time : DateTime
deriving Repr, DecidableEq

/-- The positive heat values of a result's items, in order
(`analysis.py` line 23: `[item.heat for item in items if item.heat > 0]`). -/
def positiveHeats (r : HotSearchResult) : List ℚ :=
  (r.items.filter (fun i => 0 < i.heat)).map (fun i => (i.heat : ℚ))

/-- The statistics body of `analyze_hot_search_data`
(`analysis.py` lines 19-64), reached when the input passes the guard. -/
def buildAnalysis (r : HotSearchResult) : AnalysisResult :=
  let heats := positiveHeats r
  let wordLengths := r.items.map (fun i => (i.word.length : ℚ))
  { total_items := r.items.length,
    heat_stats :=
      { avg_heat := if heats = [] then 0 else qMean heats,
        max_heat := if heats = [] then 0 else qMax heats,
        min_heat := if heats = [] then 0 else qMin heats,
        median_heat := if heats = [] then 0 else qMedian heats },
    categories := counterOf (r.items.filterMap (fun i =>
      match i.category with
      | some c => if c = "" then none else some c
      | none => none)),
    avg_word_length := if wordLengths = [] then 0 else qMean wordLengths,
    top_tags := mostCommon 10 (counterOf (r.items.flatMap (fun i => i.tags))),
    top_words := mostCommon 20 (counterOf (r.items.flatMap (fun i =>
      pySplit i.word))),
    crawl_time := r.crawl_time }

/-- Embedding of `analyze_hot_search_data` (`analysis.py` lines 12-74):
`None` input or a result whose `total` field equals 0 yields `None`
(the guard is `if not result or result.total == 0`; a pydantic model is
always truthy, so only literal `None` and `total == 0` trigger it); no
reachable exception occurs in the body, so the outer handler is dead. -/
def analyze_hot_search_data (result : Option HotSearchResult) :
    Option AnalysisResult :=
  match result with
  | none => none
  | some r => if r.total = 0 then none else some (buildAnalysis r)

/-! ## Trend analysis (`src/utils/analysis.py` lines 116-163)

`generate_trend_analysis` builds a word-to-item dict for each side
(Python dict comprehension: keys in first-occurrence order, values from the
last occurrence), then computes new words, removed words and nonzero rank
deltas, truncating the two word lists to the first 10. -/

/-- The dict value for a word: the item of the last occurrence of that word
(dict comprehensions bind last-seen values). -/
def lastWithWord (w : String) (l : List HotSearchItem) : Option HotSearchItem :=
  (l.filter (fun i => i.word == w)).getLast?

/-- The dict `{item.word: item for item in l}` as an association list:
keys in first-occurrence order, values from the last occurrence. -/
def wordMap (l : List HotSearchItem) : List (String × HotSearchItem) :=
  (firstKeys (l.map (fun i => i.word))).filterMap
    (fun w => (lastWithWord w l).map (fun it => (w, it)))

/-- Dict key-membership test `word in d`. -/
def hasWordKey (m : List (String × HotSearchItem)) (w : String) : Bool :=
  m.any (fun q => q.1 == w)

/-- Dict lookup `d[word]` (keys of a `wordMap` are distinct, so the first
match is the entry). -/
def lookupWord (m : List (String × HotSearchItem)) (w : String) :
    Option HotSearchItem :=
  (m.find? (fun q => q.1 == w)).map (fun q => q.2)

/-- One entry of the `rank_changes` list
(`analysis.py` lines 146-151). -/
structure RankChange where
  word : String
  current_rank : Int
  previous_rank : Int
  change : Int
deriving Repr, DecidableEq

/-- The `new_words` loop (`analysis.py` lines 128-131): items of the current
dict whose word is absent from the previous dict, in current-dict order. -/
def trendNewItems (current previous : List HotSearchItem) :
    List HotSearchItem :=
  ((wordMap current).filter
    (fun p => !(hasWordKey (wordMap previous) p.1))).map (fun p => p.2)

/-- The `removed_words` loop (`analysis.py` lines 134-137). -/
def trendRemovedItems (current previous : List HotSearchItem) :
    List HotSearchItem :=
  ((wordMap previous).filter
    (fun p => !(hasWordKey (wordMap current) p.1))).map (fun p => p.2)

/-- The `rank_changes` loop (`analysis.py` lines 140-151): for every word of
the current dict also present in the previous dict, the delta
`previous_rank - current_rank`, entries with delta 0 dropped. -/
def trendRankChanges (current previous : List HotSearchItem) :
    List RankChange :=
  (wordMap current).filterMap (fun p =>
    match lookupWord (wordMap previous) p.1 with
    | none => none
    | some prevItem =>
      let ch := prevItem.rank - p.2.rank
      if ch = 0 then none
      else some ⟨p.1, p.2.rank, prevItem.rank, ch⟩)

/-- The value returned by `generate_trend_analysis`: the sentinel
`{'status': 'no_previous_data'}` or the populated report dictionary. -/
inductive TrendResult where
  | noPreviousData
  | report (new_items removed_items : Nat) (rank_changes : List RankChange)
      (new_words_list removed_words_list : List String)
deriving Repr, DecidableEq

/-- Embedding of `generate_trend_analysis` (`analysis.py` lines 116-163):
empty previous data returns the sentinel; otherwise the report carries the
new/removed counts, the full rank-change list, and the first 10 new and
removed words (`new_words[:10]`, `removed_words[:10]`). -/
def generate_trend_analysis (current_items previous_items :
    List HotSearchItem) : TrendResult :=
  if previous_items = [] then TrendResult.noPreviousData
  else
    let nw := trendNewItems current_items previous_items
    let rw := trendRemovedItems current_items previous_items
    TrendResult.report nw.length rw.length
      (trendRankChanges current_items previous_items)
      ((nw.take 10).map (fun i => i.word))
      ((rw.take 10).map (fun i => i.word))

/-! ## Concrete sample data used by witnesses and counterexamples -/

/-- Occurrence of a word among items (Python `word in {item.word: ...}`
up to the dict construction, see `hasWordKey_wordMap`). -/
def hasWord (l : List HotSearchItem) (w : String) : Bool :=
  l.any (fun i => i.word == w)

/-- A minimal item bearing a given word and rank (heat/url immaterial to
the trend diff). -/
def wordItem (w : String) (r : Int) : HotSearchItem :=
  { word := w, heat := 0, rank := r, url := "" }

/-- A concrete item used by witnesses below. -/
def sampleItem : HotSearchItem :=
  { word := "测试词条", heat := 100, rank := 1, url := "https://example",
    category := some "热", tags := ["标签"], created_at := 7 }

/-- A result whose `total` disagrees with its nonempty item list (it is
constructible: `HotSearchResult(items=[...], total=5)`). -/
def desyncResult : HotSearchResult :=
  { items := [sampleItem], total := 5, crawl_time := 3,
    source := "xiaohongshu" }

/-- A result satisfying the `total = length items` invariant, for
witnesses. -/
def syncResult : HotSearchResult :=
  { items := [sampleItem], total := 1, crawl_time := 3,
    source := "xiaohongshu" }

/-- A two-item result used by the C10 witness. -/
def twoItemResult : HotSearchResult :=
  { items := [sampleItem, sampleItem], total := 2 }

/-- A zero-total primary result, as in the spec's orchestrator scenario. -/
def zeroResult : HotSearchResult :=
  { items := [], total := 0, crawl_time := 0, source := "xiaohongshu" }

/-- Browser stub in which every primitive succeeds. -/
def pwOkStub : PwStub :=
  { ctx_ok := true, page_ok := true, nav_ok := true }

/-- Three matched elements with truthy text contents. -/
def threeTexts : List (Option String) :=
  [some "alpha", some "beta", some "gamma"]

/-- The result the extraction heuristic builds from `threeTexts`. -/
def threeResult : HotSearchResult :=
  { items :=
      [{ word := "alpha", heat := 0, rank := 1, url := "", created_at := 0 },
       { word := "beta", heat := 0, rank := 2, url := "", created_at := 0 },
       { word := "gamma", heat := 0, rank := 3, url := "", created_at := 0 }],
    total := 3, crawl_time := 0, source := "xiaohongshu" }

/-- Browser stub in which navigation raises. -/
def navFailStub : PwStub :=
  { ctx_ok := true, page_ok := true, nav_ok := false }

/-- The configuration of `create_default_crawler`
(`xiaohongshu_crawler.py` lines 112-123). -/
def scrapeConfig : CrawlerConfig :=
  { hot_search_url := "https://www.xiaohongshu.com", timeout := 30,
    max_retries := 3, request_delay := 3,
    user_agent := "Mozilla/5.0 (Windows NT 10.0; Win64; x64) AppleWebKit/537.36 (KHTML, like Gecko) Chrome/120.0.0.0 Safari/537.36",
    limit := 50 }

/-- A transport stub that fails twice, then succeeds. -/
def twoFailTransport : Nat → Option Nat :=
  fun i => if i < 2 then none else some 7

/-- A decodable entry as returned by the upstream API. -/
def goodEntry : ApiEntry :=
  { name := some "词条", rank := some 1, viewnum := some "2w",
    url := some "https://x", word_type := some "热" }

/-- A transport whose response decodes successfully with embedded
code 200. -/
def goodTransport : String → HttpOutcome :=
  fun _ => HttpOutcome.resp 200 (some { code := 200, data := [goodEntry] })

/-- A nonempty result whose `total` field is 0 (constructible, e.g.
`HotSearchResult(items=[item], total=0)`). -/
def zeroTotalNonempty : HotSearchResult :=
  { items := [sampleItem], total := 0 }

/-- An all-zero-heat two-item result. -/
def allZeroHeat : HotSearchResult :=
  { items :=
      [{ word := "零一", heat := 0, rank := 1, url := "" },
       { word := "零二", heat := 0, rank := 2, url := "" }],
    total := 2 }

/-- The spec's example: previous snapshot `[("A", 1), ("B", 2)]`. -/
def exPrev : List HotSearchItem :=
  [wordItem "A" 1, wordItem "B" 2]

/-- The spec's example: current snapshot `[("B", 1), ("C", 2)]`. -/
def exCur : List HotSearchItem :=
  [wordItem "B" 1, wordItem "C" 2]

/-- Eleven current items, all with fresh words. -/
def elevenNew : List HotSearchItem :=
  [wordItem "n01" 1, wordItem "n02" 2, wordItem "n03" 3, wordItem "n04" 4,
   wordItem "n05" 5, wordItem "n06" 6, wordItem "n07" 7, wordItem "n08" 8,
   wordItem "n09" 9, wordItem "n10" 10, wordItem "n11" 11]

/-- A one-item previous snapshot sharing no word with `elevenNew`. -/
def onePrev : List HotSearchItem :=
  [wordItem "p0" 1]

/-- The first ten of the eleven new words. -/
def tenNewWords : List String :=
  ["n01", "n02", "n03", "n04", "n05", "n06", "n07", "n08", "n09", "n10"]

/-! ## Shared lemmas about appends -/

/-- One `add_item` call leaves `total` equal to the item count. -/
theorem add_item_total_eq_length (r : HotSearchResult) (i : HotSearchItem) :
    (r.add_item i).total = ((r.add_item i).items.length : Int) := by
  simp [HotSearchResult.add_item]

/-- A sequence of appends appends. -/
theorem add_items_items (l : List HotSearchItem) :
    ∀ r : HotSearchResult, (r.add_items l).items = r.items ++ l := by
  induction l with
  | nil => intro r; simp [HotSearchResult.add_items]
  | cons i t ih =>
    intro r
    show ((r.add_item i).add_items t).items = r.items ++ i :: t
    rw [ih (r.add_item i)]
    simp [HotSearchResult.add_item]

/-- Appends preserve the `total = length` invariant once it holds. -/
theorem add_items_total (l : List HotSearchItem) :
    ∀ r : HotSearchResult, r.total = (r.items.length : Int) →
      (r.add_items l).total = ((r.add_items l).items.length : Int) := by
  induction l with
  | nil => intro r h; exact h
  | cons i t ih =>
    intro r _
    show ((r.add_item i).add_items t).total = _
    exact ih (r.add_item i) (add_item_total_eq_length r i)

/-- A nonempty sequence of appends establishes the `total = length`
invariant regardless of the starting state, because every `add_item`
recomputes `total`. -/
theorem add_items_total_of_ne_nil (l : List HotSearchItem)
    (r : HotSearchResult) (h : l ≠ []) :
    (r.add_items l).total = ((r.add_items l).items.length : Int) := by
  match l, h with
  | i :: t, _ =>
    show ((r.add_item i).add_items t).total = _
    exact add_items_total t (r.add_item i) (add_item_total_eq_length r i)

/-- Appends never touch `crawl_time` or `source`. -/
theorem add_items_meta (l : List HotSearchItem) :
    ∀ r : HotSearchResult, (r.add_items l).crawl_time = r.crawl_time ∧
      (r.add_items l).source = r.source := by
  induction l with
  | nil => intro r; exact ⟨rfl, rfl⟩
  | cons i t ih =>
    intro r
    show ((r.add_item i).add_items t).crawl_time = _ ∧
      ((r.add_item i).add_items t).source = _
    exact ih (r.add_item i)

/-! ## Claim C3: the ResultSet total invariant -/

/-- Claim C3, amended part: after each `add_item` append, `total` equals the
length of `items`, for every starting state and every nonempty sequence of
appends — `add_item` recomputes `total` on every call.  (The claim's further
conjunct, that `total` is never independently settable to a disagreeing
value, is refuted by `c3_total_settable_counterexample`.) -/
theorem c3_total_tracks_appends :
    (∀ (r : HotSearchResult) (i : HotSearchItem),
      (r.add_item i).total = ((r.add_item i).items.length : Int)) ∧
    (∀ (r : HotSearchResult) (i : HotSearchItem) (l : List HotSearchItem),
      (r.add_items (i :: l)).total =
        ((r.add_items (i :: l)).items.length : Int)) := by
  refine ⟨add_item_total_eq_length, fun r i l => ?_⟩
  exact add_items_total_of_ne_nil (i :: l) r (by simp)

/-- Claim C3, counterexample to "never independently settable": `total` is an
ordinary pydantic field, so `HotSearchResult(total=5)` (exactly the
construction pattern of `DataSaver.load_json`, `data_saver.py` lines
158-162) yields a state whose `total` disagrees with its item count. -/
theorem c3_total_settable_counterexample :
    ({ items := [], total := 5 } : HotSearchResult).total ≠
      (({ items := [], total := 5 } : HotSearchResult).items.length : Int) := by
  decide

/-! ## Claim C4: JSON round trip -/

/-- Round trip preserves the item sequence exactly. -/
theorem load_json_save_json_items (r : HotSearchResult) :
    (load_json (save_json r)).items = r.items := by
  show (HotSearchResult.add_items _ _).items = r.items
  rw [add_items_items]
  have h : itemOfJson ∘ itemToJson = id := funext fun i => rfl
  simp [save_json, List.map_map, h]

/-- Claim C4 (amended): saving then loading reproduces the item sequence
(every field of every item, in order), the crawl time and the source for
every `HotSearchResult`; the loaded `total` equals the loaded item count, so
the round trip is the identity exactly on results whose `total` already
equals their item count.  (Equality of `total` fails in general:
`c4_round_trip_counterexample`.) -/
theorem c4_round_trip :
    (∀ r : HotSearchResult,
      (load_json (save_json r)).items = r.items ∧
      (load_json (save_json r)).crawl_time = r.crawl_time ∧
      (load_json (save_json r)).source = r.source) ∧
    (∀ r : HotSearchResult, r.total = (r.items.length : Int) →
      load_json (save_json r) = r) := by
  have hmeta : ∀ r : HotSearchResult,
      (load_json (save_json r)).crawl_time = r.crawl_time ∧
      (load_json (save_json r)).source = r.source := by
    intro r
    exact add_items_meta _ _
  refine ⟨fun r => ⟨load_json_save_json_items r, hmeta r⟩, fun r h => ?_⟩
  have hi := load_json_save_json_items r
  have hct := (hmeta r).1
  have hs := (hmeta r).2
  have ht : (load_json (save_json r)).total = r.total := by
    rcases hnil : r.items with _ | ⟨i, t⟩
    · show (HotSearchResult.add_items _ _).total = r.total
      simp [save_json, hnil, HotSearchResult.add_items]
    · have h2 : (load_json (save_json r)).total =
          ((load_json (save_json r)).items.length : Int) := by
        show (HotSearchResult.add_items _ _).total = _
        apply add_items_total_of_ne_nil
        simp [save_json, hnil]
      rw [h2, hi, ← h]
  rcases e : load_json (save_json r) with ⟨li, lt, lct, ls⟩
  rcases r with ⟨ri, rt, rct, rs⟩
  rw [e] at hi hct hs ht
  simp only at hi hct hs ht
  rw [hi, hct, hs, ht]

/-- Claim C4, counterexample: round-tripping a result whose `total` field
disagrees with its nonempty item list does not reconstruct an equal result —
`load_json` rebuilds `total` from the appends (here 1, not 5), so the claim
as stated over every `HotSearchResult` is false. -/
theorem c4_round_trip_counterexample :
    load_json (save_json desyncResult) ≠ desyncResult := by
  decide

/-- Claim C4, witness for the amended round-trip identity at a concrete
in-invariant result. -/
theorem c4_round_trip_witness :
    load_json (save_json syncResult) = syncResult :=
  c4_round_trip.2 syncResult (by decide)

/-! ## Claim C10: get_top_n -/

/-- Claim C10: `get_top_n n` returns the first `min n (length items)` stored
items in their stored order — an initial segment of `items`, all of `items`
when `n` is at least the item count, and elementwise the stored item at each
index below `n`.  The call reads `r.items` only, so `r` (its items, total,
crawl_time and source) is unchanged, which the pure embedding renders
definitionally. -/
theorem c10_get_top_n_spec :
    ∀ (r : HotSearchResult) (n : Nat),
      (r.get_top_n n).length = min n r.items.length ∧
      (∃ t, r.items = r.get_top_n n ++ t) ∧
      (r.items.length ≤ n → r.get_top_n n = r.items) ∧
      (∀ i : Nat, i < n → (r.get_top_n n)[i]? = r.items[i]?) := by
  intro r n
  refine ⟨List.length_take n r.items,
    ⟨r.items.drop n, (List.take_append_drop n r.items).symm⟩,
    fun h => List.take_of_length_le h,
    fun i hi => ?_⟩
  simp [HotSearchResult.get_top_n, List.getElem?_take, hi]

/-- Claim C10, witness: both hypothetical conjuncts discharged at a concrete
two-item result. -/
theorem c10_get_top_n_witness :
    twoItemResult.get_top_n 5 = twoItemResult.items ∧
    (twoItemResult.get_top_n 1)[0]? = twoItemResult.items[0]? :=
  ⟨(c10_get_top_n_spec twoItemResult 5).2.2.1 (by decide),
   (c10_get_top_n_spec twoItemResult 1).2.2.2 0 (by decide)⟩

/-! ## Claim C1: fallback orchestrator -/

/-- The extraction loop preserves the `total = length` invariant. -/
theorem extractLoop_total (now : DateTime) :
    ∀ (ps : List (Nat × Option String)) (r : HotSearchResult),
      r.total = (r.items.length : Int) →
      (extractLoop now ps r).total =
        ((extractLoop now ps r).items.length : Int) := by
  intro ps
  induction ps with
  | nil => intro r h; exact h
  | cons p t ih =>
    intro r h
    rcases p with ⟨i, txt⟩
    rcases txt with _ | txt
    · exact ih r h
    · by_cases htxt : txt = ""
      · simp only [extractLoop, htxt, if_pos rfl]
        exact ih r h
      · simp only [extractLoop, if_neg htxt]
        exact ih _ (add_item_total_eq_length r _)

/-- A result returned by `_extract_data_from_page` has `total` equal to its
item count and strictly positive. -/
theorem extract_data_from_page_total (texts : List (Option String))
    (limit : Nat) (now : DateTime) (res : HotSearchResult)
    (h : extract_data_from_page texts limit now = some res) :
    res.total = (res.items.length : Int) ∧ 0 < res.total := by
  simp only [extract_data_from_page] at h
  split at h
  · have hres := Option.some.inj h
    subst hres
    refine ⟨extractLoop_total now _ _ (by simp), by assumption⟩
  · simp at h

/-- Claim C1: the fallback orchestrator (i) returns the primary result
immediately, without invoking the browser fallback, whenever it is non-null
with positive total; (ii) returns null when the primary yields null or a
zero-total result and the fallback is disabled or the browser fails to
start; (iii) with the fallback enabled, the browser started and the
extraction succeeding, returns exactly the extracted result, whose item
count is positive. -/
theorem c1_fallback_orchestrator :
    (∀ (r : HotSearchResult) (use_pw setup_ok : Bool) (st : PwStub)
        (texts : List (Option String)) (limit : Nat) (now : DateTime),
      0 < r.total →
      fallback_crawl_hot_search (some r) use_pw setup_ok st texts limit now =
        (some r, false)) ∧
    (∀ (primary : Option HotSearchResult) (use_pw setup_ok : Bool)
        (st : PwStub) (texts : List (Option String)) (limit : Nat)
        (now : DateTime),
      (primary = none ∨ ∃ r, primary = some r ∧ r.total ≤ 0) →
      (use_pw = false ∨ setup_ok = false) →
      (fallback_crawl_hot_search primary use_pw setup_ok st texts limit
        now).1 = none) ∧
    (∀ (primary : Option HotSearchResult) (st : PwStub)
        (texts : List (Option String)) (limit : Nat) (now : DateTime)
        (res : HotSearchResult),
      (primary = none ∨ ∃ r, primary = some r ∧ r.total ≤ 0) →
      st.ctx_ok = true → st.page_ok = true → st.nav_ok = true →
      extract_data_from_page texts limit now = some res →
      res.total = (res.items.length : Int) ∧ 0 < res.total ∧
      fallback_crawl_hot_search primary true true st texts limit now =
        (some res, true)) := by
  refine ⟨?_, ?_, ?_⟩
  · intro r use_pw setup_ok st texts limit now h
    simp [fallback_crawl_hot_search, h]
  · intro primary use_pw setup_ok st texts limit now hfail hoff
    rcases hfail with rfl | ⟨r, rfl, hr⟩
    · rcases hoff with rfl | rfl
      · simp [fallback_crawl_hot_search]
      · cases use_pw <;> simp [fallback_crawl_hot_search]
    · have hr' : decide (0 < r.total) = false := decide_eq_false (by omega)
      rcases hoff with rfl | rfl
      · simp [fallback_crawl_hot_search, hr']
      · cases use_pw <;> simp [fallback_crawl_hot_search, hr']
  · intro primary st texts limit now res hfail hctx hpage hnav hex
    obtain ⟨ht, hpos⟩ := extract_data_from_page_total texts limit now res hex
    refine ⟨ht, hpos, ?_⟩
    rcases hfail with rfl | ⟨r, rfl, hr⟩
    · simp [fallback_crawl_hot_search, crawl_with_playwright, hctx, hpage,
        hnav, hex]
    · have hr' : decide (0 < r.total) = false := decide_eq_false (by omega)
      simp [fallback_crawl_hot_search, hr', crawl_with_playwright, hctx,
        hpage, hnav, hex]

/-- Claim C1, witness: a zero-total primary stub with the fallback enabled
and a three-element browser extraction makes the orchestrator return exactly
those three items. -/
theorem c1_fallback_orchestrator_witness :
    threeResult.total = (threeResult.items.length : Int) ∧
    0 < threeResult.total ∧
    fallback_crawl_hot_search (some zeroResult) true true pwOkStub threeTexts
      50 0 = (some threeResult, true) :=
  c1_fallback_orchestrator.2.2 (some zeroResult) pwOkStub threeTexts 50 0
    threeResult (Or.inr ⟨zeroResult, rfl, by decide⟩) rfl rfl rfl (by decide)

/-! ## Claim C9: browser resource teardown -/

/-- Claim C9 (amended): only the straight-line success path of
`_crawl_with_playwright` releases resources, and then only the page and the
context; an exception during navigation leaves the acquired page and context
unreleased; no exit path releases the browser or the engine handle, which
are released only by the separate `close` method (which always attempts
both, swallowing close failures). -/
theorem c9_teardown :
    (∀ (st : PwStub) (texts : List (Option String)) (limit : Nat)
        (now : DateTime),
      st.ctx_ok = true → st.page_ok = true → st.nav_ok = true →
      (crawl_with_playwright true st texts limit now).2 =
        [REvent.newContext, REvent.newPage, REvent.closePage,
         REvent.closeContext]) ∧
    (∀ (st : PwStub) (texts : List (Option String)) (limit : Nat)
        (now : DateTime),
      st.ctx_ok = true → st.page_ok = true → st.nav_ok = false →
      (crawl_with_playwright true st texts limit now).2 =
        [REvent.newContext, REvent.newPage]) ∧
    (∀ (b : Bool) (st : PwStub) (texts : List (Option String)) (limit : Nat)
        (now : DateTime),
      REvent.closeBrowser ∉ (crawl_with_playwright b st texts limit now).2 ∧
      REvent.stopEngine ∉ (crawl_with_playwright b st texts limit now).2) ∧
    close_fallback_crawler true true =
      [REvent.closeBrowser, REvent.stopEngine] := by
  refine ⟨?_, ?_, ?_, rfl⟩
  · intro st texts limit now hctx hpage hnav
    simp [crawl_with_playwright, hctx, hpage, hnav]
  · intro st texts limit now hctx hpage hnav
    simp [crawl_with_playwright, hctx, hpage, hnav]
  · intro b st texts limit now
    unfold crawl_with_playwright
    split_ifs <;> simp

/-- Claim C9, counterexample: with an exception raised during navigation,
`_crawl_with_playwright` returns having acquired a context and a page and
released nothing, so the claimed release-on-every-exit-path property is
false at this input. -/
theorem c9_teardown_counterexample :
    (crawl_with_playwright true navFailStub [] 50 0).2 =
      [REvent.newContext, REvent.newPage] ∧
    ¬ releasedAllResources (crawl_with_playwright true navFailStub
      [] 50 0).2 := by
  constructor
  · decide
  · intro h
    have := h.2.2.1
    revert this
    decide

/-- Claim C9, witness: the amended success-path conjunct at the all-succeed
stub. -/
theorem c9_teardown_witness :
    (crawl_with_playwright true pwOkStub [] 50 0).2 =
      [REvent.newContext, REvent.newPage, REvent.closePage,
       REvent.closeContext] :=
  c9_teardown.1 pwOkStub [] 50 0 rfl rfl rfl

/-! ## Claim C5: bounded retry loop -/

/-- A pre-request delay adds one attempt to the count. -/
theorem numAttempts_preDelay (q : ℚ) (t : List ReqEvent) :
    numAttempts (ReqEvent.preDelay q :: t) = numAttempts t + 1 := by
  simp [numAttempts, List.countP_cons]

/-- A backoff sleep adds no attempt to the count. -/
theorem numAttempts_backoff (q : ℚ) (t : List ReqEvent) :
    numAttempts (ReqEvent.backoff q :: t) = numAttempts t := by
  simp [numAttempts, List.countP_cons]

/-- A pre-request delay contributes no backoff duration. -/
theorem backoffSeconds_preDelay (q : ℚ) (t : List ReqEvent) :
    backoffSeconds (ReqEvent.preDelay q :: t) = backoffSeconds t := by
  simp [backoffSeconds]

/-- A backoff sleep contributes its duration. -/
theorem backoffSeconds_backoff (q : ℚ) (t : List ReqEvent) :
    backoffSeconds (ReqEvent.backoff q :: t) = q :: backoffSeconds t := by
  simp [backoffSeconds]

/-- The loop makes at most `remaining` further attempts. -/
theorem makeRequestAux_attempts {α : Type} (transport : Nat → Option α)
    (rd : ℚ) (dd bd : Nat → ℚ) :
    ∀ (remaining attempt : Nat),
      numAttempts (makeRequestAux transport rd dd bd attempt remaining).2 ≤
        remaining := by
  intro remaining
  induction remaining with
  | zero => intro a; simp [makeRequestAux, numAttempts]
  | succ r ih =>
    intro a
    simp only [makeRequestAux]
    cases htr : transport a with
    | some resp => simp [numAttempts, List.countP_cons]
    | none =>
      by_cases hr : r = 0
      · subst hr
        simp [numAttempts, List.countP_cons]
      · simp only [if_neg hr]
        have h := ih (a + 1)
        simp only [numAttempts_preDelay, numAttempts_backoff]
        omega

/-- With an always-failing transport, the loop fails after exactly
`remaining` attempts. -/
theorem makeRequestAux_all_fail {α : Type} (transport : Nat → Option α)
    (rd : ℚ) (dd bd : Nat → ℚ) (hfail : ∀ i, transport i = none) :
    ∀ (remaining attempt : Nat),
      (makeRequestAux transport rd dd bd attempt remaining).1 = none ∧
      numAttempts (makeRequestAux transport rd dd bd attempt remaining).2 =
        remaining := by
  intro remaining
  induction remaining with
  | zero => intro a; exact ⟨rfl, rfl⟩
  | succ r ih =>
    intro a
    simp only [makeRequestAux, hfail a]
    by_cases hr : r = 0
    · subst hr
      exact ⟨rfl, by simp [numAttempts, List.countP_cons]⟩
    · simp only [if_neg hr]
      obtain ⟨h1, h2⟩ := ih (a + 1)
      refine ⟨h1, ?_⟩
      simp only [numAttempts_preDelay, numAttempts_backoff, h2]

/-- The backoff durations recorded from start attempt `attempt` form an
initial run of `2 ^ (attempt + j) + draw (attempt + j)`. -/
theorem makeRequestAux_backoffs {α : Type} (transport : Nat → Option α)
    (rd : ℚ) (dd bd : Nat → ℚ) :
    ∀ (remaining attempt : Nat), ∃ k,
      backoffSeconds (makeRequestAux transport rd dd bd attempt remaining).2 =
        (List.range k).map
          (fun j => (2 : ℚ) ^ (attempt + j) + bd (attempt + j)) := by
  intro remaining
  induction remaining with
  | zero => intro a; exact ⟨0, by simp [makeRequestAux, backoffSeconds]⟩
  | succ r ih =>
    intro a
    simp only [makeRequestAux]
    cases htr : transport a with
    | some resp => exact ⟨0, by simp [backoffSeconds]⟩
    | none =>
      by_cases hr : r = 0
      · subst hr
        exact ⟨0, by simp [backoffSeconds]⟩
      · simp only [if_neg hr]
        obtain ⟨k, hk⟩ := ih (a + 1)
        refine ⟨k + 1, ?_⟩
        rw [backoffSeconds_preDelay, backoffSeconds_backoff, hk,
          List.range_succ_eq_map, List.map_cons, List.map_map]
        simp only [Nat.add_zero, Function.comp_def]
        congr 1
        apply List.map_congr_left
        intro j _
        simp only [Nat.succ_eq_add_one]
        rw [show a + 1 + j = a + (j + 1) by omega]

/-- Claim C5: the request helper makes at most `max_retries` attempts; a
transport failing twice then succeeding yields the success result after
exactly 2 backoff sleeps and 3 attempts (possible whenever `max_retries ≥
3`, the source default); an always-failing transport yields `none` after
exactly `max_retries` attempts; and the `i`-th backoff sleep (following the
non-final failed attempt of index `i`) lasts `2 ^ i` plus that attempt's
`uniform(1, 3)` draw. -/
theorem c5_bounded_retry :
    (∀ (α : Type) (cfg : CrawlerConfig) (transport : Nat → Option α)
        (dd bd : Nat → ℚ),
      numAttempts (make_request cfg transport dd bd).2 ≤ cfg.max_retries) ∧
    (∀ (α : Type) (cfg : CrawlerConfig) (transport : Nat → Option α)
        (dd bd : Nat → ℚ) (resp : α),
      transport 0 = none → transport 1 = none → transport 2 = some resp →
      3 ≤ cfg.max_retries →
      (make_request cfg transport dd bd).1 = some resp ∧
      (backoffSeconds (make_request cfg transport dd bd).2).length = 2 ∧
      numAttempts (make_request cfg transport dd bd).2 = 3) ∧
    (∀ (α : Type) (cfg : CrawlerConfig) (transport : Nat → Option α)
        (dd bd : Nat → ℚ),
      (∀ i, transport i = none) →
      (make_request cfg transport dd bd).1 = none ∧
      numAttempts (make_request cfg transport dd bd).2 = cfg.max_retries) ∧
    (∀ (α : Type) (cfg : CrawlerConfig) (transport : Nat → Option α)
        (dd bd : Nat → ℚ) (i : Nat),
      i < (backoffSeconds (make_request cfg transport dd bd).2).length →
      (backoffSeconds (make_request cfg transport dd bd).2)[i]? =
        some ((2 : ℚ) ^ i + bd i)) := by
  refine ⟨?_, ?_, ?_, ?_⟩
  · intro α cfg transport dd bd
    exact makeRequestAux_attempts transport _ dd bd cfg.max_retries 0
  · intro α cfg transport dd bd resp h0 h1 h2 hmr
    obtain ⟨k, hm⟩ : ∃ k, cfg.max_retries = k + 1 + 1 + 1 :=
      ⟨cfg.max_retries - 3, by omega⟩
    unfold make_request
    rw [hm]
    simp [makeRequestAux, h0, h1, h2, numAttempts, backoffSeconds,
      List.countP_cons]
  · intro α cfg transport dd bd hfail
    exact makeRequestAux_all_fail transport _ dd bd hfail cfg.max_retries 0
  · intro α cfg transport dd bd i hi
    obtain ⟨k, hk⟩ := makeRequestAux_backoffs transport
      ((cfg.request_delay : ℚ)) dd bd cfg.max_retries 0
    unfold make_request at hi ⊢
    rw [hk] at hi ⊢
    simp only [List.length_map, List.length_range] at hi
    simp [List.getElem?_map, List.getElem?_range, hi]

/-- Claim C5, witness: the fails-twice-then-succeeds scenario at the
default configuration, plus the backoff-shape conjunct at index 0. -/
theorem c5_bounded_retry_witness :
    ((make_request scrapeConfig twoFailTransport (fun _ => 1)
        (fun _ => 2)).1 = some 7 ∧
      (backoffSeconds (make_request scrapeConfig twoFailTransport
        (fun _ => 1) (fun _ => 2)).2).length = 2 ∧
      numAttempts (make_request scrapeConfig twoFailTransport (fun _ => 1)
        (fun _ => 2)).2 = 3) ∧
    (backoffSeconds (make_request scrapeConfig twoFailTransport
      (fun _ => 1) (fun _ => 2)).2)[0]? = some ((2 : ℚ) ^ 0 + 2) :=
  ⟨c5_bounded_retry.2.1 Nat scrapeConfig twoFailTransport (fun _ => 1)
      (fun _ => 2) 7 (by decide) (by decide) (by decide) (by decide),
   c5_bounded_retry.2.2.2 Nat scrapeConfig twoFailTransport (fun _ => 1)
      (fun _ => 2) 0 (by decide)⟩

/-! ## Claim C6: API credential precondition -/

/-- Claim C6 (amended): the absence check lives in the factory, not in the
fetch method: `create_api_crawler` raises `ValueError` — before any network
call — whenever both the passed key and the environment key are falsy, and
any crawler it does return carries a non-empty credential; the fetch path
itself (`_make_api_request`) issues its network call unconditionally,
sending whatever credential the crawler holds. -/
theorem c6_credential_check :
    (∀ api_key env_key : Option String,
      pyTruthy api_key = false → pyTruthy env_key = false →
      create_api_crawler api_key env_key = Except.error "missing api key") ∧
    (∀ (api_key env_key : Option String) (k : String) (cfg : CrawlerConfig),
      create_api_crawler api_key env_key = Except.ok (k, cfg) → k ≠ "") ∧
    (∀ (api_key : String) (transport : String → HttpOutcome),
      (make_api_request api_key transport).2 = [api_key]) := by
  refine ⟨?_, ?_, fun _ _ => rfl⟩
  · intro ak ek h1 h2
    unfold create_api_crawler
    rw [h1]
    cases ek with
    | none => rfl
    | some s =>
      have hs : s = "" := by simpa [pyTruthy] using h2
      simp [hs]
  · intro ak ek k cfg h
    unfold create_api_crawler at h
    rcases hks : (if pyTruthy ak then ak else ek) with _ | s
    · rw [hks] at h
      exact Except.noConfusion h
    · rw [hks] at h
      dsimp only at h
      by_cases hs : s = ""
      · rw [if_pos hs] at h
        exact Except.noConfusion h
      · rw [if_neg hs] at h
        injection h with h2
        cases h2
        exact hs

/-- Claim C6, counterexample: with an absent (empty) credential,
`crawl_hot_search` still issues the network call — carrying the empty
key — and, against a transport that answers, returns a non-null result, so
the claim that the absence is checked in fetch before any network call (and
makes fetch return null) is false. -/
theorem c6_credential_counterexample :
    (api_crawl_hot_search "" goodTransport 50 0).2 = [""] ∧
    (api_crawl_hot_search "" goodTransport 50 0).1 ≠ none := by
  constructor
  · rfl
  · decide

/-- Claim C6, witness: the factory refuses a wholly absent credential. -/
theorem c6_credential_check_witness :
    create_api_crawler none none = Except.error "missing api key" :=
  c6_credential_check.1 none none rfl rfl

/-! ## Claim C7: analysis contract -/

/-- Claim C7 (amended): `analyze` returns null for null input and exactly
for inputs whose `total` field is 0 (for results satisfying the
`total = item count` invariant this coincides with "has zero items", but the
guard reads `total`, not the item list); otherwise it returns the statistics
object, whose `total_items` counts all items while the four heat statistics
depend only on the sublist of items with positive heat — in particular they
are all 0 when every item's heat is 0. -/
theorem c7_analyze :
    analyze_hot_search_data none = none ∧
    (∀ r : HotSearchResult,
      analyze_hot_search_data (some r) = none ↔ r.total = 0) ∧
    (∀ r : HotSearchResult, r.total ≠ 0 →
      analyze_hot_search_data (some r) = some (buildAnalysis r) ∧
      (buildAnalysis r).total_items = r.items.length) ∧
    (∀ r r' : HotSearchResult, positiveHeats r = positiveHeats r' →
      (buildAnalysis r).heat_stats = (buildAnalysis r').heat_stats) ∧
    (∀ r : HotSearchResult, (∀ i ∈ r.items, i.heat = 0) →
      (buildAnalysis r).heat_stats = ⟨0, 0, 0, 0⟩ ∧
      (buildAnalysis r).total_items = r.items.length) := by
  refine ⟨rfl, ?_, ?_, ?_, ?_⟩
  · intro r
    by_cases h : r.total = 0 <;> simp [analyze_hot_search_data, h]
  · intro r h
    exact ⟨by simp [analyze_hot_search_data, h], rfl⟩
  · intro r r' h
    simp only [buildAnalysis]
    rw [h]
  · intro r h
    have hnil : positiveHeats r = [] := by
      unfold positiveHeats
      rw [List.filter_eq_nil_iff.mpr]
      · rfl
      · intro i hi
        simp [h i hi]
    exact ⟨by simp [buildAnalysis, hnil], rfl⟩

/-- Claim C7, counterexample: the guard reads the `total` field, so a result
with one item but `total = 0` is analyzed to null even though it does not
"have zero items" — the claimed "null exactly when the input is null or has
zero items" is false at this input. -/
theorem c7_analyze_counterexample :
    analyze_hot_search_data (some zeroTotalNonempty) = none ∧
    zeroTotalNonempty.items.length = 1 := by
  constructor
  · rfl
  · rfl

/-- Claim C7, witness: a result whose items all have zero heat is analyzed
to zero heat statistics with `total_items` equal to the item count. -/
theorem c7_analyze_witness :
    analyze_hot_search_data (some allZeroHeat) =
      some (buildAnalysis allZeroHeat) ∧
    (buildAnalysis allZeroHeat).heat_stats = ⟨0, 0, 0, 0⟩ ∧
    (buildAnalysis allZeroHeat).total_items = 2 :=
  ⟨(c7_analyze.2.2.1 allZeroHeat (by decide)).1,
   (c7_analyze.2.2.2.2 allZeroHeat (by decide)).1,
   (c7_analyze.2.2.1 allZeroHeat (by decide)).2⟩

/-! ## Claim C8: trend diff -/

/-- Membership in the first-occurrence key list is plain membership. -/
theorem mem_firstKeys {α : Type} [DecidableEq α] (l : List α) (x : α) :
    x ∈ firstKeys l ↔ x ∈ l := by
  induction l with
  | nil => simp [firstKeys]
  | cons a t ih =>
    simp only [firstKeys, List.mem_cons, List.mem_filter, ih]
    by_cases hx : x = a <;> simp [hx]

/-- The last element of a list, when it exists, is a member. -/
theorem mem_of_getLastQ {α : Type} (l : List α) (a : α)
    (h : l.getLast? = some a) : a ∈ l := by
  obtain ⟨hne, heq⟩ :=
    List.mem_getLast?_eq_getLast (show a ∈ l.getLast? by simp [h])
  rw [heq]
  exact List.getLast_mem hne

/-- A `lastWithWord` hit is an item of the list bearing that word. -/
theorem lastWithWord_mem (w : String) (l : List HotSearchItem)
    (it : HotSearchItem) (h : lastWithWord w l = some it) :
    it ∈ l ∧ it.word = w := by
  unfold lastWithWord at h
  have hm := mem_of_getLastQ _ _ h
  have := List.mem_filter.mp hm
  refine ⟨this.1, ?_⟩
  have hb := this.2
  simpa using hb

/-- When some item bears the word, `lastWithWord` hits. -/
theorem lastWithWord_isSome (w : String) (l : List HotSearchItem)
    (h : ∃ i ∈ l, i.word = w) :
    ∃ it, lastWithWord w l = some it ∧ it ∈ l ∧ it.word = w := by
  obtain ⟨i, hi, hw⟩ := h
  have hne : l.filter (fun i => i.word == w) ≠ [] := by
    intro hnil
    have : i ∈ l.filter (fun i => i.word == w) :=
      List.mem_filter.mpr ⟨hi, by simp [hw]⟩
    rw [hnil] at this
    cases this
  rcases hg : (l.filter (fun i => i.word == w)).getLast? with _ | it
  · exact absurd (List.getLast?_eq_none_iff.mp hg) hne
  · exact ⟨it, hg, lastWithWord_mem w l it hg⟩

/-- Every entry of the dict maps its key to the last item bearing it. -/
theorem mem_wordMap (l : List HotSearchItem) (p : String × HotSearchItem)
    (h : p ∈ wordMap l) :
    lastWithWord p.1 l = some p.2 ∧ p.2 ∈ l ∧ p.2.word = p.1 := by
  unfold wordMap at h
  obtain ⟨w0, _, hf⟩ := List.mem_filterMap.mp h
  rcases hlw : lastWithWord w0 l with _ | it
  · rw [hlw] at hf
    cases hf
  · rw [hlw] at hf
    have hf' : (w0, it) = p := by simpa using hf
    rcases p with ⟨pw, pit⟩
    cases hf'
    exact ⟨hlw, (lastWithWord_mem _ _ _ hlw).1, (lastWithWord_mem _ _ _ hlw).2⟩

/-- Dict key membership coincides with word occurrence in the item list. -/
theorem hasWordKey_wordMap (l : List HotSearchItem) (w : String) :
    hasWordKey (wordMap l) w = hasWord l w := by
  rcases hl : hasWord l w with _ | _
  · -- no item bears the word: no entry can have the key
    rw [Bool.eq_false_iff]
    intro hk
    obtain ⟨p, hp, hpe⟩ := List.any_eq_true.mp hk
    have hw : p.1 = w := by simpa using hpe
    obtain ⟨_, hmem, hword⟩ := mem_wordMap l p hp
    have : hasWord l w = true :=
      List.any_eq_true.mpr ⟨p.2, hmem, by simp [hword, hw]⟩
    rw [hl] at this
    cases this
  · -- some item bears the word: the dict has the key
    obtain ⟨i, hi, hw⟩ := List.any_eq_true.mp hl
    have hw' : i.word = w := by simpa using hw
    obtain ⟨it, hlw, _, _⟩ := lastWithWord_isSome w l ⟨i, hi, hw'⟩
    apply List.any_eq_true.mpr
    refine ⟨(w, it), ?_, by simp⟩
    unfold wordMap
    apply List.mem_filterMap.mpr
    refine ⟨w, ?_, by rw [hlw]; rfl⟩
    apply (mem_firstKeys _ _).mpr
    exact List.mem_map.mpr ⟨i, hi, hw'⟩

/-- With pairwise-distinct words, the word filter isolates the item. -/
theorem filter_word_eq_singleton (l : List HotSearchItem) (j : HotSearchItem)
    (hnd : (l.map (fun i => i.word)).Nodup) (hj : j ∈ l) :
    l.filter (fun i => i.word == j.word) = [j] := by
  induction l with
  | nil => cases hj
  | cons x t ih =>
    rw [List.map_cons, List.nodup_cons] at hnd
    obtain ⟨hx, hnd'⟩ := hnd
    rcases List.mem_cons.mp hj with rfl | hjt
    · have ht : t.filter (fun i => i.word == j.word) = [] := by
        apply List.filter_eq_nil_iff.mpr
        intro i hi
        simp only [beq_iff_eq]
        intro he
        exact hx (he ▸ List.mem_map.mpr ⟨i, hi, rfl⟩)
      simp [List.filter_cons, ht]
    · have hxw : ¬ (x.word == j.word) = true := by
        simp only [beq_iff_eq]
        intro he
        exact hx (he ▸ List.mem_map.mpr ⟨j, hjt, rfl⟩)
      simp only [List.filter_cons, if_neg hxw]
      exact ih hnd' hjt

/-- With pairwise-distinct words, `lastWithWord` finds the unique item. -/
theorem lastWithWord_nodup (l : List HotSearchItem) (j : HotSearchItem)
    (hnd : (l.map (fun i => i.word)).Nodup) (hj : j ∈ l) :
    lastWithWord j.word l = some j := by
  unfold lastWithWord
  rw [filter_word_eq_singleton l j hnd hj]
  rfl

/-- With pairwise-distinct words, every item appears as its own dict
entry. -/
theorem mem_wordMap_self (l : List HotSearchItem) (i : HotSearchItem)
    (hnd : (l.map (fun i => i.word)).Nodup) (hi : i ∈ l) :
    (i.word, i) ∈ wordMap l := by
  unfold wordMap
  apply List.mem_filterMap.mpr
  refine ⟨i.word, (mem_firstKeys _ _).mpr (List.mem_map.mpr ⟨i, hi, rfl⟩), ?_⟩
  rw [lastWithWord_nodup l i hnd hi]
  rfl

/-- The element found by `find?` satisfies the predicate. -/
theorem find?_pred {α : Type} (p : α → Bool) :
    ∀ (l : List α) (a : α), l.find? p = some a → p a = true := by
  intro l
  induction l with
  | nil => intro a h; cases h
  | cons x t ih =>
    intro a h
    by_cases hp : p x = true
    · rw [List.find?_cons_of_pos _ hp] at h
      cases h
      exact hp
    · rw [List.find?_cons_of_neg _ (by simpa using hp)] at h
      exact ih a h

/-- The element found by `find?` is a member. -/
theorem mem_of_findQ {α : Type} (p : α → Bool) :
    ∀ (l : List α) (a : α), l.find? p = some a → a ∈ l := by
  intro l
  induction l with
  | nil => intro a h; cases h
  | cons x t ih =>
    intro a h
    by_cases hp : p x = true
    · rw [List.find?_cons_of_pos _ hp] at h
      cases h
      exact List.mem_cons_self x t
    · rw [List.find?_cons_of_neg _ (by simpa using hp)] at h
      exact List.mem_cons_of_mem x (ih a h)

/-- A failed `find?` means no member satisfies the predicate. -/
theorem findQ_eq_none {α : Type} (p : α → Bool) (l : List α)
    (h : l.find? p = none) (x : α) (hx : x ∈ l) : p x = false := by
  induction l with
  | nil => cases hx
  | cons y t ih =>
    by_cases hp : p y = true
    · rw [List.find?_cons_of_pos _ hp] at h
      cases h
    · rw [List.find?_cons_of_neg _ (by simpa using hp)] at h
      rcases List.mem_cons.mp hx with rfl | hxt
      · simpa using hp
      · exact ih h hxt

/-- With pairwise-distinct words, dict lookup of an item's word returns that
item. -/
theorem lookupWord_wordMap_nodup (l : List HotSearchItem)
    (j : HotSearchItem) (hnd : (l.map (fun i => i.word)).Nodup)
    (hj : j ∈ l) : lookupWord (wordMap l) j.word = some j := by
  unfold lookupWord
  rcases hf : (wordMap l).find? (fun q => q.1 == j.word) with _ | p
  · exfalso
    have hmem := mem_wordMap_self l j hnd hj
    have := findQ_eq_none _ _ hf (j.word, j) hmem
    simp at this
  · have hp1 : (p.1 == j.word) = true :=
      find?_pred (fun q => q.1 == j.word) (wordMap l) p hf
    have hpmem := mem_of_findQ (fun q => q.1 == j.word) (wordMap l) p hf
    obtain ⟨hlw, _, _⟩ := mem_wordMap l p hpmem
    have hp1' : p.1 = j.word := by simpa using hp1
    rw [hp1', lastWithWord_nodup l j hnd hj] at hlw
    have hj2 : j = p.2 := Option.some.inj hlw
    rw [hf]
    simp [← hj2]

/-- Claim C8 (amended): with empty previous data the sentinel is returned;
otherwise the report carries the full count of new and removed terms and
the full rank-change list but only the FIRST 10 new and removed words; every
reported new word is present now and absent before, and when at most 10
terms are new the reported list is complete; every rank change carries
`change = previous_rank - current_rank ≠ 0` for a term present on both
sides, and (for snapshots with pairwise-distinct words, the expected shape)
every term present on both sides with differing ranks is reported; on the
spec's example the report is new=`["C"]`, removed=`["A"]`,
`rank_changes=[{B, 1, 2, +1}]`. -/
theorem c8_trend_diff :
    (∀ current : List HotSearchItem,
      generate_trend_analysis current [] = TrendResult.noPreviousData) ∧
    (∀ (current previous : List HotSearchItem), previous ≠ [] →
      generate_trend_analysis current previous =
        TrendResult.report (trendNewItems current previous).length
          (trendRemovedItems current previous).length
          (trendRankChanges current previous)
          (((trendNewItems current previous).take 10).map (fun i => i.word))
          (((trendRemovedItems current previous).take 10).map
            (fun i => i.word))) ∧
    (∀ (current previous : List HotSearchItem) (w : String),
      w ∈ ((trendNewItems current previous).take 10).map (fun i => i.word) →
      hasWord current w = true ∧ hasWord previous w = false) ∧
    (∀ (current previous : List HotSearchItem) (w : String),
      (trendNewItems current previous).length ≤ 10 →
      hasWord current w = true → hasWord previous w = false →
      w ∈ ((trendNewItems current previous).take 10).map (fun i => i.word)) ∧
    (∀ (current previous : List HotSearchItem) (w : String),
      w ∈ ((trendRemovedItems current previous).take 10).map
        (fun i => i.word) →
      hasWord previous w = true ∧ hasWord current w = false) ∧
    (∀ (current previous : List HotSearchItem) (c : RankChange),
      c ∈ trendRankChanges current previous →
      c.change = c.previous_rank - c.current_rank ∧ c.change ≠ 0 ∧
      hasWord current c.word = true ∧ hasWord previous c.word = true) ∧
    (∀ (current previous : List HotSearchItem) (i j : HotSearchItem),
      (current.map (fun i => i.word)).Nodup →
      (previous.map (fun i => i.word)).Nodup →
      i ∈ current → j ∈ previous → i.word = j.word → j.rank - i.rank ≠ 0 →
      (⟨i.word, i.rank, j.rank, j.rank - i.rank⟩ : RankChange) ∈
        trendRankChanges current previous) ∧
    generate_trend_analysis exCur exPrev =
      TrendResult.report 1 1 [⟨"B", 1, 2, 1⟩] ["C"] ["A"] := by
  refine ⟨?_, ?_, ?_, ?_, ?_, ?_, ?_, by decide⟩
  · intro current
    rfl
  · intro current previous hprev
    simp [generate_trend_analysis, hprev]
  · intro current previous w hw
    obtain ⟨i, hi, rfl⟩ := List.mem_map.mp hw
    have hi' : i ∈ trendNewItems current previous := List.mem_of_mem_take hi
    unfold trendNewItems at hi'
    obtain ⟨p, hp, rfl⟩ := List.mem_map.mp hi'
    have hpf := List.mem_filter.mp hp
    obtain ⟨_, hmem, hword⟩ := mem_wordMap _ _ hpf.1
    refine ⟨List.any_eq_true.mpr ⟨p.2, hmem, by simp⟩, ?_⟩
    have hnk : hasWordKey (wordMap previous) p.1 = false := by
      simpa using hpf.2
    rw [hasWordKey_wordMap] at hnk
    rw [hword]
    exact hnk
  · intro current previous w hlen hc hp
    obtain ⟨i, hi, hw⟩ := List.any_eq_true.mp hc
    have hw' : i.word = w := by simpa using hw
    obtain ⟨it, hlw, hitm, hitw⟩ := lastWithWord_isSome w current ⟨i, hi, hw'⟩
    have hentry : (w, it) ∈ wordMap current := by
      unfold wordMap
      apply List.mem_filterMap.mpr
      refine ⟨w, (mem_firstKeys _ _).mpr (List.mem_map.mpr ⟨i, hi, hw'⟩), ?_⟩
      rw [hlw]
      rfl
    have hfilter : (w, it) ∈ (wordMap current).filter
        (fun p => !(hasWordKey (wordMap previous) p.1)) := by
      apply List.mem_filter.mpr
      exact ⟨hentry, by simp [hasWordKey_wordMap, hp]⟩
    have hnew : it ∈ trendNewItems current previous := by
      unfold trendNewItems
      exact List.mem_map.mpr ⟨(w, it), hfilter, rfl⟩
    have htake : it ∈ (trendNewItems current previous).take 10 := by
      rw [List.take_of_length_le hlen]
      exact hnew
    exact List.mem_map.mpr ⟨it, htake, hitw⟩
  · intro current previous w hw
    obtain ⟨i, hi, rfl⟩ := List.mem_map.mp hw
    have hi' : i ∈ trendRemovedItems current previous :=
      List.mem_of_mem_take hi
    unfold trendRemovedItems at hi'
    obtain ⟨p, hp, rfl⟩ := List.mem_map.mp hi'
    have hpf := List.mem_filter.mp hp
    obtain ⟨_, hmem, hword⟩ := mem_wordMap _ _ hpf.1
    refine ⟨List.any_eq_true.mpr ⟨p.2, hmem, by simp⟩, ?_⟩
    have hnk : hasWordKey (wordMap current) p.1 = false := by
      simpa using hpf.2
    rw [hasWordKey_wordMap] at hnk
    rw [hword]
    exact hnk
  · intro current previous c hc
    unfold trendRankChanges at hc
    obtain ⟨p, hp, hf⟩ := List.mem_filterMap.mp hc
    obtain ⟨_, hpm, hpw⟩ := mem_wordMap _ _ hp
    rcases hlu : lookupWord (wordMap previous) p.1 with _ | prevItem
    · rw [hlu] at hf
      cases hf
    · rw [hlu] at hf
      dsimp only at hf
      by_cases hch : prevItem.rank - p.2.rank = 0
      · rw [if_pos hch] at hf
        cases hf
      · rw [if_neg hch] at hf
        have he := Option.some.inj hf
        subst he
        refine ⟨rfl, hch, List.any_eq_true.mpr ⟨p.2, hpm, by simp [hpw]⟩, ?_⟩
        unfold lookupWord at hlu
        rcases hfq : (wordMap previous).find? (fun q => q.1 == p.1)
          with _ | q
        · rw [hfq] at hlu
          cases hlu
        · rw [hfq] at hlu
          have hq2 : q.2 = prevItem := by simpa using hlu
          have hq1 : (q.1 == p.1) = true :=
            find?_pred (fun q => q.1 == p.1) (wordMap previous) q hfq
          have hqm := mem_of_findQ (fun q => q.1 == p.1) (wordMap previous)
            q hfq
          obtain ⟨_, hqmem, hqword⟩ := mem_wordMap _ _ hqm
          apply List.any_eq_true.mpr
          refine ⟨q.2, hqmem, ?_⟩
          have hq1' : q.1 = p.1 := by simpa using hq1
          simp [hqword, hq1']
  · intro current previous i j hndc hndp hi hj hw hch
    unfold trendRankChanges
    apply List.mem_filterMap.mpr
    refine ⟨(i.word, i), mem_wordMap_self current i hndc hi, ?_⟩
    have hlu : lookupWord (wordMap previous) i.word = some j := by
      rw [hw]
      exact lookupWord_wordMap_nodup previous j hndp hj
    simp only [hlu]
    rw [if_neg hch]

/-- Claim C8, counterexample: with 11 newly appearing terms the report's
new-words list is truncated to the first 10 (`new_words[:10]`), so the term
`n11` is newly appearing but absent from the reported list — the claim that
the report carries the set of newly appearing terms is false. -/
theorem c8_trend_diff_counterexample :
    generate_trend_analysis elevenNew onePrev =
      TrendResult.report 11 1 [] tenNewWords ["p0"] ∧
    hasWord elevenNew "n11" = true ∧ hasWord onePrev "n11" = false ∧
    "n11" ∉ tenNewWords := by
  decide

/-- Claim C8, witness: the completeness conjuncts discharged on the spec's
example snapshots. -/
theorem c8_trend_diff_witness :
    "C" ∈ ((trendNewItems exCur exPrev).take 10).map (fun i => i.word) ∧
    (⟨"B", 1, 2, 1⟩ : RankChange) ∈ trendRankChanges exCur exPrev :=
  ⟨c8_trend_diff.2.2.2.1 exCur exPrev "C" (by decide) (by decide) (by decide),
   c8_trend_diff.2.2.2.2.2.2.1 exCur exPrev (wordItem "B" 1)
     (wordItem "B" 2) (by decide) (by decide) (by decide) (by decide) rfl
     (by decide)⟩

/-! ## Claim C2: heat value parser -/

/-- Stripping whitespace only removes characters. -/
theorem mem_of_mem_stripPy (cs : List Char) (c : Char)
    (h : c ∈ stripPy cs) : c ∈ cs := by
  unfold stripPy at h
  rw [List.mem_reverse] at h
  have h1 : c ∈ (cs.dropWhile isPySpace).reverse :=
    (List.dropWhile_sublist _).subset h
  rw [List.mem_reverse] at h1
  exact (List.dropWhile_sublist _).subset h1

/-- Preprocessing only removes characters from the lowercased input. -/
theorem mem_pyLowered_of_mem_processed (s : String) (c : Char)
    (h : c ∈ processedChars s) : c ∈ pyLowered s :=
  mem_of_mem_stripPy _ _ (List.mem_of_mem_filter h)

/-- A decimal digit character has code between 48 and 57. -/
theorem isDigit_toNat (c : Char) (h : c.isDigit = true) :
    48 ≤ c.toNat ∧ c.toNat ≤ 57 := by
  simp only [Char.isDigit, Bool.and_eq_true, decide_eq_true_eq] at h
  obtain ⟨h1, h2⟩ := h
  exact ⟨h1, h2⟩

/-- The digit fold stays below `(accumulator + 1) * 10 ^ length`. -/
theorem digitsFoldlAux (cs : List Char) :
    ∀ a : Nat, cs.all Char.isDigit = true →
      cs.foldl (fun a c => 10 * a + (c.toNat - 48)) a <
        (a + 1) * 10 ^ cs.length := by
  induction cs with
  | nil =>
    intro a _
    simp
  | cons c t ih =>
    intro a h
    rw [List.all_cons, Bool.and_eq_true] at h
    have hc := (isDigit_toNat c h.1).2
    have h1 := ih (10 * a + (c.toNat - 48)) h.2
    have h2 : (10 * a + (c.toNat - 48) + 1) * 10 ^ t.length ≤
        (a + 1) * 10 ^ (t.length + 1) := by
      have h3 : 10 * a + (c.toNat - 48) + 1 ≤ (a + 1) * 10 := by omega
      calc (10 * a + (c.toNat - 48) + 1) * 10 ^ t.length
          ≤ ((a + 1) * 10) * 10 ^ t.length := Nat.mul_le_mul_right _ h3
        _ = (a + 1) * 10 ^ (t.length + 1) := by ring
    simp only [List.foldl_cons, List.length_cons]
    exact lt_of_lt_of_le h1 h2

/-- The numeric value of a digit string is below `10 ^ length`. -/
theorem digitsToNat_lt (cs : List Char) (h : cs.all Char.isDigit = true) :
    digitsToNat cs < 10 ^ cs.length := by
  have h1 := digitsFoldlAux cs 0 h
  simpa [digitsToNat] using h1

/-- With no exponent marker in its input, `parseDecimal` returns a
non-negative mantissa below `10 ^ length` and a non-positive exponent
(the exponent is the negated fraction length). -/
theorem parseDecimal_bounds (cs : List Char) (p : Int × Int)
    (he : 'e' ∉ cs) (h : parseDecimal cs = some p) :
    0 ≤ p.1 ∧ p.1.natAbs < 10 ^ cs.length ∧ p.2 ≤ 0 := by
  have hdw : cs.dropWhile (· ≠ 'e') = [] := by
    rw [List.dropWhile_eq_nil_iff]
    intro c hc
    simp only [ne_eq, decide_not, Bool.not_eq_true', decide_eq_false_iff_not]
    intro hce
    exact he (hce ▸ hc)
  have htw : cs.takeWhile (· ≠ 'e') = cs := by
    have h2 : cs.takeWhile (· ≠ 'e') ++ cs.dropWhile (· ≠ 'e') = cs :=
      List.takeWhile_append_dropWhile _ _
    rw [hdw, List.append_nil] at h2
    exact h2
  have hsplit : (cs.takeWhile (· ≠ '.')).length +
      (cs.dropWhile (· ≠ '.')).length = cs.length := by
    have h2 : cs.takeWhile (· ≠ '.') ++ cs.dropWhile (· ≠ '.') = cs :=
      List.takeWhile_append_dropWhile _ _
    calc (cs.takeWhile (· ≠ '.')).length + (cs.dropWhile (· ≠ '.')).length
        = (cs.takeWhile (· ≠ '.') ++ cs.dropWhile (· ≠ '.')).length :=
          (List.length_append _ _).symm
      _ = cs.length := by rw [h2]
  simp only [parseDecimal, hdw, htw] at h
  split at h
  · cases h
  · next fs heq =>
    split_ifs at h with hc
    · have hp := Option.some.inj h
      subst hp
      have hfs : fs.all Char.isDigit = true ∧
          fs.length ≤ (cs.dropWhile (· ≠ '.')).length := by
        rcases hfr : cs.dropWhile (· ≠ '.') with _ | ⟨d, fr⟩
        · rw [hfr] at heq
          have hfs0 : ([] : List Char) = fs := Option.some.inj heq
          rw [← hfs0]
          exact ⟨rfl, by simp⟩
        · rw [hfr] at heq
          have heq2 : (if fr.all Char.isDigit then some fr else none) =
              some fs := heq
          split_ifs at heq2 with hfd
          have hfs0 : fr = fs := Option.some.inj heq2
          rw [← hfs0]
          exact ⟨hfd, by simp⟩
      refine ⟨by positivity, ?_, by omega⟩
      rw [Int.natAbs_ofNat]
      have hall : (cs.takeWhile (· ≠ '.') ++ fs).all Char.isDigit = true := by
        rw [List.all_append, Bool.and_eq_true]
        exact ⟨hc.1, hfs.1⟩
      have hlt := digitsToNat_lt _ hall
      have hlen : (cs.takeWhile (· ≠ '.') ++ fs).length ≤ cs.length := by
        rw [List.length_append]
        omega
      exact lt_of_lt_of_le hlt (Nat.pow_le_pow_right (by norm_num) hlen)

/-- A decimal value with mantissa below `10 ^ 300` and exponent at most 4
stays far below the binary64 overflow threshold. -/
theorem decOverflows_eq_false (m e : Int) (hm : m.natAbs < 10 ^ 300)
    (he : e ≤ 4) : decOverflows m e = false := by
  unfold decOverflows
  split_ifs with h0
  · apply decide_eq_false
    intro hle
    have ht : e.toNat ≤ 4 := by omega
    have h1 : m.natAbs * 10 ^ e.toNat < 10 ^ 300 * 10 ^ 4 := by
      calc m.natAbs * 10 ^ e.toNat
          ≤ m.natAbs * 10 ^ 4 :=
            Nat.mul_le_mul_left _ (Nat.pow_le_pow_right (by norm_num) ht)
        _ < 10 ^ 300 * 10 ^ 4 :=
            mul_lt_mul_of_pos_right hm (by positivity)
    have h2 : (10 : Nat) ^ 300 * 10 ^ 4 < dblOverflowThreshold := by
      norm_num [dblOverflowThreshold]
    omega
  · apply decide_eq_false
    intro hle
    have h1 : dblOverflowThreshold ≤
        dblOverflowThreshold * 10 ^ (-e).toNat :=
      Nat.le_mul_of_pos_right _ (by positivity)
    have h2 : (10 : Nat) ^ 300 < dblOverflowThreshold := by
      norm_num [dblOverflowThreshold]
    omega

/-- On a short payload with no exponent marker and no infinity keyword,
`parseUnsigned` fails, yields NaN, or yields a finite value with a small
mantissa and non-positive exponent — never an infinity. -/
theorem parseUnsigned_small (neg : Bool) (cs : List Char) (hi : 'i' ∉ cs)
    (he : 'e' ∉ cs) (hlen : cs.length ≤ 300) :
    parseUnsigned neg cs = none ∨ parseUnsigned neg cs = some PyNum.nan ∨
    ∃ m e2, parseUnsigned neg cs = some (PyNum.finite m e2) ∧
      m.natAbs < 10 ^ 300 ∧ e2 ≤ 0 := by
  unfold parseUnsigned
  by_cases h1 : cs = "inf".data ∨ cs = "infinity".data
  · exfalso
    rcases h1 with rfl | rfl
    · exact hi (by decide)
    · exact hi (by decide)
  · rw [if_neg h1]
    by_cases h2 : cs = "nan".data
    · rw [if_pos h2]
      exact Or.inr (Or.inl rfl)
    · rw [if_neg h2]
      rcases hd : parseDecimal cs with _ | p
      · exact Or.inl rfl
      · obtain ⟨hp1, hp2, hp3⟩ := parseDecimal_bounds cs p he hd
        have hpb : p.1.natAbs < 10 ^ 300 :=
          lt_of_lt_of_le hp2 (Nat.pow_le_pow_right (by norm_num) hlen)
        have hov : decOverflows p.1 p.2 = false :=
          decOverflows_eq_false p.1 p.2 hpb (by omega)
        refine Or.inr (Or.inr
          ⟨if neg then -p.1 else p.1, p.2, by simp [hov], ?_, hp3⟩)
        cases neg <;> simpa [Int.natAbs_neg] using hpb

/-- Whitespace stripping does not lengthen a list. -/
theorem stripPy_length_le (cs : List Char) :
    (stripPy cs).length ≤ cs.length := by
  unfold stripPy
  have h1 : (cs.dropWhile isPySpace).length ≤ cs.length :=
    (List.dropWhile_sublist _).length_le
  have h2 : ((cs.dropWhile isPySpace).reverse.dropWhile isPySpace).length ≤
      (cs.dropWhile isPySpace).reverse.length :=
    (List.dropWhile_sublist _).length_le
  simp only [List.length_reverse] at *
  omega

/-- On a short input with no exponent marker and no `i`, `float()` fails,
yields NaN, or yields a small finite value — never an infinity. -/
theorem pyFloat_small (cs : List Char) (hi : 'i' ∉ cs) (he : 'e' ∉ cs)
    (hlen : cs.length ≤ 300) :
    pyFloatOfChars cs = none ∨ pyFloatOfChars cs = some PyNum.nan ∨
    ∃ m e2, pyFloatOfChars cs = some (PyNum.finite m e2) ∧
      m.natAbs < 10 ^ 300 ∧ e2 ≤ 0 := by
  have hfl : ((stripPy cs).filter (· ≠ '_')).length ≤ 300 :=
    le_trans (le_trans (List.length_filter_le _ _) (stripPy_length_le cs))
      hlen
  have hfm : ∀ c : Char, c ∈ (stripPy cs).filter (· ≠ '_') → c ∈ cs :=
    fun c hc => mem_of_mem_stripPy _ _ (List.mem_of_mem_filter hc)
  unfold pyFloatOfChars
  split_ifs with hund
  · split
    next rest heq =>
      refine parseUnsigned_small false rest ?_ ?_ ?_
      · intro hmem
        exact hi (hfm 'i' (heq ▸ List.mem_cons_of_mem _ hmem))
      · intro hmem
        exact he (hfm 'e' (heq ▸ List.mem_cons_of_mem _ hmem))
      · have h3 := congrArg List.length heq
        simp only [List.length_cons] at h3
        omega
    next rest heq =>
      refine parseUnsigned_small true rest ?_ ?_ ?_
      · intro hmem
        exact hi (hfm 'i' (heq ▸ List.mem_cons_of_mem _ hmem))
      · intro hmem
        exact he (hfm 'e' (heq ▸ List.mem_cons_of_mem _ hmem))
      · have h3 := congrArg List.length heq
        simp only [List.length_cons] at h3
        omega
    next rest h3 h4 =>
      refine parseUnsigned_small false _ ?_ ?_ hfl
      · intro hmem
        exact hi (hfm 'i' hmem)
      · intro hmem
        exact he (hfm 'e' hmem)
  · exact Or.inl rfl

/-- On a short payload with no exponent marker and no `i`, the scaled-heat
tail returns a value for every scale exponent up to 4: neither the float
conversion nor the scaling can overflow. -/
theorem scaledHeat_ok_small (num : List Char) (k : Nat) (hk : k ≤ 4)
    (hi : 'i' ∉ num) (he : 'e' ∉ num) (hlen : num.length ≤ 300) :
    ∃ z, scaledHeat num k = Except.ok z := by
  rcases pyFloat_small num hi he hlen with hf | hf | ⟨m, e2, hf, hm, he2⟩
  · exact ⟨0, by simp [scaledHeat, hf]⟩
  · exact ⟨0, by simp [scaledHeat, hf]⟩
  · have hov : decOverflows m (e2 + (k : Int)) = false :=
      decOverflows_eq_false m _ hm (by omega)
    exact ⟨pyIntOfDec m (e2 + (k : Int)), by simp [scaledHeat, hf, hov]⟩

/-- The mantissa returned by `parseDecimal` is non-negative. -/
theorem parseDecimal_fst_nonneg (cs : List Char) (p : Int × Int)
    (h : parseDecimal cs = some p) : 0 ≤ p.1 := by
  simp only [parseDecimal] at h
  split at h
  · cases h
  · split at h
    · cases h
    · split at h
      · have := Option.some.inj h
        subst this
        positivity
      · cases h

/-- A finite `parseUnsigned false` outcome has a non-negative mantissa. -/
theorem parseUnsigned_finite_nonneg (cs : List Char) (m e : Int)
    (h : parseUnsigned false cs = some (PyNum.finite m e)) : 0 ≤ m := by
  unfold parseUnsigned at h
  by_cases h1 : cs = "inf".data ∨ cs = "infinity".data
  · rw [if_pos h1] at h
    simp at h
  · rw [if_neg h1] at h
    by_cases h2 : cs = "nan".data
    · rw [if_pos h2] at h
      simp at h
    · rw [if_neg h2] at h
      rcases hd : parseDecimal cs with _ | p
      · rw [hd] at h
        cases h
      · rw [hd] at h
        by_cases hov : decOverflows p.1 p.2 = true
        · simp [hov] at h
        · simp [hov] at h
          have hp := parseDecimal_fst_nonneg cs p hd
          omega

/-- A finite `float()` outcome on an input without a minus sign has a
non-negative mantissa. -/
theorem pyFloat_finite_nonneg (cs : List Char) (m e : Int)
    (h : pyFloatOfChars cs = some (PyNum.finite m e)) (hm : '-' ∉ cs) :
    0 ≤ m := by
  unfold pyFloatOfChars at h
  split_ifs at h with hund
  · split at h
    next rest heq => exact parseUnsigned_finite_nonneg rest m e h
    next rest heq =>
      exfalso
      apply hm
      have hmem : '-' ∈ '-' :: rest := List.mem_cons_self _ _
      rw [← heq] at hmem
      exact mem_of_mem_stripPy _ _ (List.mem_of_mem_filter hmem)
    next rest h1 h2 => exact parseUnsigned_finite_nonneg _ m e h

/-- Truncation of a non-negative decimal value is non-negative. -/
theorem pyIntOfDec_nonneg (m e : Int) (hm : 0 ≤ m) :
    0 ≤ pyIntOfDec m e := by
  unfold pyIntOfDec
  split_ifs
  · positivity
  · exact Int.tdiv_nonneg hm (by positivity)

/-- The scaled-heat tail returns a non-negative integer when its numeric
payload carries no minus sign. -/
theorem scaledHeat_ok_nonneg (num : List Char) (k : Nat) (z : Int)
    (h : scaledHeat num k = Except.ok z) (hm : '-' ∉ num) : 0 ≤ z := by
  unfold scaledHeat at h
  split at h
  · cases h
    exact le_refl 0
  · cases h
    exact le_refl 0
  · cases h
  · next m e heq =>
    split_ifs at h with hov
    cases h
    exact pyIntOfDec_nonneg m _ (pyFloat_finite_nonneg num m e heq hm)


set_option maxRecDepth 12000

/-- Preprocessing does not lengthen the input. -/
theorem processedChars_length_le (s : String) :
    (processedChars s).length ≤ s.length := by
  unfold processedChars
  have h1 : ((stripPy (pyLowered s)).filter
      (fun c => c ≠ ' ' ∧ c ≠ ',')).length ≤ (stripPy (pyLowered s)).length :=
    List.length_filter_le _ _
  have h2 := stripPy_length_le (pyLowered s)
  have h3 : (pyLowered s).length = s.length := by
    unfold pyLowered
    rw [List.length_map]
    rfl
  omega

/-- Claim C2 (amended): the unit scaling and malformed-input behaviour are
as claimed — `"2w"→20000`, `"3k"→3000`, `"150"→150`, `""→0`, `"n/a"→0`
(plus the spec's `"1100.9w"→11009000` and the CJK markers) — and the result
is non-negative whenever the lowercased input carries no minus sign; but
the function neither stays non-negative nor never raises on all strings: a
negative numeric string returns its negative truncated value, and it raises
an uncaught `OverflowError` whenever a float value becomes infinite — on the
`inf`/`infinity` keywords, on literals overflowing the binary64 range such
as `"1e400"`, and on values overflowing when multiplied by the unit scale
such as `"1.7e308w"`; it does return an integer, without raising, on every
input of at most 300 characters whose lowercase form contains neither `i`
nor `e` — in particular on every realistic heat string. -/
theorem c2_parse_heat :
    (parse_heat_value "2w" = Except.ok 20000 ∧
     parse_heat_value "3k" = Except.ok 3000 ∧
     parse_heat_value "150" = Except.ok 150 ∧
     parse_heat_value "" = Except.ok 0 ∧
     parse_heat_value "n/a" = Except.ok 0 ∧
     parse_heat_value "1100.9w" = Except.ok 11009000 ∧
     parse_heat_value "1100.9万" = Except.ok 11009000 ∧
     parse_heat_value "5千" = Except.ok 5000 ∧
     parse_heat_value "abc" = Except.ok 0 ∧
     parse_heat_value "1e400" = Except.error HeatErr.overflow ∧
     parse_heat_value "1.7e308w" = Except.error HeatErr.overflow) ∧
    (∀ (s : String) (z : Int), parse_heat_value s = Except.ok z →
      '-' ∉ pyLowered s → 0 ≤ z) ∧
    (∀ s : String, 'i' ∉ pyLowered s → 'e' ∉ pyLowered s →
      s.length ≤ 300 → ∃ z, parse_heat_value s = Except.ok z) := by
  refine ⟨by decide, ?_, ?_⟩
  · intro s z h hm
    unfold parse_heat_value at h
    split_ifs at h with h0 h1 h2
    · cases h
      exact le_refl 0
    · refine scaledHeat_ok_nonneg _ 4 z h ?_
      intro hmem
      exact hm (mem_pyLowered_of_mem_processed s '-'
        (List.mem_of_mem_filter hmem))
    · refine scaledHeat_ok_nonneg _ 3 z h ?_
      intro hmem
      exact hm (mem_pyLowered_of_mem_processed s '-'
        (List.mem_of_mem_filter hmem))
    · refine scaledHeat_ok_nonneg _ 0 z h ?_
      intro hmem
      exact hm (mem_pyLowered_of_mem_processed s '-' hmem)
  · intro s hi he hlen
    have hplen : (processedChars s).length ≤ 300 :=
      le_trans (processedChars_length_le s) hlen
    unfold parse_heat_value
    split_ifs with h0 h1 h2
    · exact ⟨0, rfl⟩
    · refine scaledHeat_ok_small _ 4 (le_refl 4) ?_ ?_
        (le_trans (List.length_filter_le _ _) hplen)
      · intro hmem
        exact hi (mem_pyLowered_of_mem_processed s 'i'
          (List.mem_of_mem_filter hmem))
      · intro hmem
        exact he (mem_pyLowered_of_mem_processed s 'e'
          (List.mem_of_mem_filter hmem))
    · refine scaledHeat_ok_small _ 3 (by norm_num) ?_ ?_
        (le_trans (List.length_filter_le _ _) hplen)
      · intro hmem
        exact hi (mem_pyLowered_of_mem_processed s 'i'
          (List.mem_of_mem_filter hmem))
      · intro hmem
        exact he (mem_pyLowered_of_mem_processed s 'e'
          (List.mem_of_mem_filter hmem))
    · refine scaledHeat_ok_small _ 0 (by norm_num) ?_ ?_ hplen
      · intro hmem
        exact hi (mem_pyLowered_of_mem_processed s 'i' hmem)
      · intro hmem
        exact he (mem_pyLowered_of_mem_processed s 'e' hmem)

/-- Claim C2, counterexample: the input `"-5"` yields the negative integer
-5 (refuting "returns a non-negative integer for every input string"), and
the input `"inf"` makes `int(float('inf'))` raise `OverflowError`, which the
function's `except (ValueError, TypeError)` clause does not catch (refuting
"never raises"). -/
theorem c2_parse_heat_counterexample :
    parse_heat_value "-5" = Except.ok (-5) ∧ ¬ (0 ≤ (-5 : Int)) ∧
    parse_heat_value "inf" = Except.error HeatErr.overflow := by
  decide

/-- Claim C2, witness: the non-negativity and bounded no-raise conjuncts
discharged at concrete inputs. -/
theorem c2_parse_heat_witness :
    (0 : Int) ≤ 150 ∧ ∃ z, parse_heat_value "abc" = Except.ok z :=
  ⟨c2_parse_heat.2.1 "150" 150 (by decide) (by decide),
   c2_parse_heat.2.2 "abc" (by decide) (by decide) (by decide)⟩
